import Mathlib

/-!
# Audit pipeline of new-api: body tap, signer, exporter middleware, collector

A shallow embedding of

* `src/service/audit_export.go`  (`signAuditPayload`),
* `src/cmd/audit-server/handlers.go` (`verifyNewAPISignature`, `handleNewAPIWebhook`,
  `handleEventsListAPI`, `handleEventsListPage`, `truncateString`, `absInt64`, `parseInt64`,
  `parseInt`, `parseUint64`, `getRemoteIP`),
* `src/cmd/audit-server/config.go` (`LoadConfig`, `parseInt64Env`, `getEnv`),
* `src/cmd/audit-server/model.go` (`NewAPIAuditEvent`, `AuditRecord`, `AuditRecordSummary`),
* `src/middleware/audit_export.go` (`auditTapReadCloser`, `AuditExport`).

Go `string` and `[]byte` values are byte sequences; both are modelled by `List Nat`
(every element of a real value is below 256).  Go `int64` values are modelled by `Int`
with an explicit wrap to the signed 64-bit range wherever the source does arithmetic
that can leave it.  The SQL store behind gorm is not part of the sources; it is modelled
from the specification (`Db`, `Db.Create`, `Db.Find`).
-/

namespace AuditPipeline

/-! ## Byte strings and the Go standard-library helpers the source calls -/

/-- Go `string` / `[]byte`: a sequence of bytes. -/
abbrev Bytes := List Nat

/-- ASCII string literal of the source as bytes. -/
def lit (s : String) : Bytes := s.toList.map Char.toNat

/-- UTF-8 encodings of the runes for which Go `unicode.IsSpace` holds:
TAB, LF, VT, FF, CR, SPACE, U+0085, U+00A0, U+1680, U+2000..U+200A, U+2028, U+2029,
U+202F, U+205F, U+3000. -/
def spaceRunes : List Bytes :=
  [[9], [10], [11], [12], [13], [32],
   [0xC2, 0x85], [0xC2, 0xA0], [0xE1, 0x9A, 0x80],
   [0xE2, 0x80, 0x80], [0xE2, 0x80, 0x81], [0xE2, 0x80, 0x82], [0xE2, 0x80, 0x83],
   [0xE2, 0x80, 0x84], [0xE2, 0x80, 0x85], [0xE2, 0x80, 0x86], [0xE2, 0x80, 0x87],
   [0xE2, 0x80, 0x88], [0xE2, 0x80, 0x89], [0xE2, 0x80, 0x8A],
   [0xE2, 0x80, 0xA8], [0xE2, 0x80, 0xA9], [0xE2, 0x80, 0xAF], [0xE2, 0x81, 0x9F],
   [0xE3, 0x80, 0x80]]

/-- Number of bytes of the sequence of `seqs` that `s` starts with, 0 when there is none. -/
def leadLen (seqs : List Bytes) (s : Bytes) : Nat :=
  match seqs.find? (fun q => q.isPrefixOf s) with
  | some q => q.length
  | none => 0

/-- Strip leading sequences of `seqs`, at most `fuel` of them. -/
def stripLead (seqs : List Bytes) : Nat → Bytes → Bytes
  | 0, s => s
  | fuel + 1, s =>
    match leadLen seqs s with
    | 0 => s
    | k + 1 => stripLead seqs fuel (s.drop (k + 1))

/-- Go `strings.TrimLeftFunc(s, unicode.IsSpace)`: a leading rune is white space exactly
when `s` starts with its UTF-8 encoding (an invalid byte decodes to U+FFFD, not a space). -/
def trimLeftSpace (s : Bytes) : Bytes :=
  stripLead spaceRunes s.length s

/-- Go `strings.TrimRightFunc(s, unicode.IsSpace)`: the last rune is white space exactly
when `s` ends with its UTF-8 encoding. -/
def trimRightSpace (s : Bytes) : Bytes :=
  (stripLead (spaceRunes.map List.reverse) s.length s.reverse).reverse

/-- Go `strings.TrimSpace`. -/
def trimSpace (s : Bytes) : Bytes :=
  trimRightSpace (trimLeftSpace s)

/-- Go `strings.TrimPrefix`. -/
def trimLeading (pre s : Bytes) : Bytes :=
  if pre.isPrefixOf s then s.drop pre.length else s

/-- One character of Go's `hextable = "0123456789abcdef"`. -/
def hexDigit (d : Nat) : Nat :=
  if d < 10 then 48 + d else 87 + d

/-- Go `hex.EncodeToString`: two lower-case digits per byte, high nibble first. -/
def hexEncode : Bytes → Bytes
  | [] => []
  | b :: rest => hexDigit (b / 16) :: hexDigit (b % 16) :: hexEncode rest

/-- Go `reverseHexTable`: the value of a hex digit (either case), `none` for another byte. -/
def fromHexChar (c : Nat) : Option Nat :=
  if 48 ≤ c ∧ c ≤ 57 then some (c - 48)
  else if 97 ≤ c ∧ c ≤ 102 then some (c - 87)
  else if 65 ≤ c ∧ c ≤ 70 then some (c - 55)
  else none

/-- Go `hex.DecodeString`; `none` stands for a non-nil error (an invalid byte or an odd
length). -/
def hexDecode : Bytes → Option Bytes
  | [] => some []
  | [_] => none
  | p :: q :: rest =>
    match fromHexChar p, fromHexChar q, hexDecode rest with
    | some a, some b, some tl => some ((a * 16 + b) :: tl)
    | _, _, _ => none

/-! ## SHA-256 and HMAC (Go `crypto/sha256`, `crypto/hmac`) -/

/-- Addition of 32-bit words. -/
def add32 (x y : Nat) : Nat := (x + y) % 4294967296

/-- Rotate a 32-bit word right by `n` bits. -/
def rotr32 (x n : Nat) : Nat :=
  ((x >>> n) ||| (x <<< (32 - n))) % 4294967296

/-- Round constants of SHA-256 (FIPS 180-4, section 4.2.2), in decimal: the first 32 bits of
the fractional parts of the cube roots of the first 64 primes. -/
def sha256K : List Nat :=
  [1116352408, 1899447441, 3049323471, 3921009573, 961987163, 1508970993,
   2453635748, 2870763221, 3624381080, 310598401, 607225278, 1426881987,
   1925078388, 2162078206, 2614888103, 3248222580, 3835390401, 4022224774,
   264347078, 604807628, 770255983, 1249150122, 1555081692, 1996064986,
   2554220882, 2821834349, 2952996808, 3210313671, 3336571891, 3584528711,
   113926993, 338241895, 666307205, 773529912, 1294757372, 1396182291,
   1695183700, 1986661051, 2177026350, 2456956037, 2730485921, 2820302411,
   3259730800, 3345764771, 3516065817, 3600352804, 4094571909, 275423344,
   430227734, 506948616, 659060556, 883997877, 958139571, 1322822218,
   1537002063, 1747873779, 1955562222, 2024104815, 2227730452, 2361852424,
   2428436474, 2756734187, 3204031479, 3329325298]

/-- The eight working words of SHA-256. -/
structure ShaState where
  a : Nat
  b : Nat
  c : Nat
  d : Nat
  e : Nat
  f : Nat
  g : Nat
  h : Nat
deriving DecidableEq, Repr

/-- Initial hash value of SHA-256 (FIPS 180-4, section 5.3.3), in decimal: the first 32 bits
of the fractional parts of the square roots of the first 8 primes. -/
def shaInit : ShaState :=
  ⟨1779033703, 3144134277, 1013904242, 2773480762,
   1359893119, 2600822924, 528734635, 1541459225⟩

/-- One round of the compression function with round constant `k` and schedule word `w`. -/
def shaRound (s : ShaState) (k w : Nat) : ShaState :=
  let s1 := rotr32 s.e 6 ^^^ rotr32 s.e 11 ^^^ rotr32 s.e 25
  let ch := (s.e &&& s.f) ^^^ ((4294967295 - s.e) &&& s.g)
  let t1 := add32 (add32 (add32 (add32 s.h s1) ch) k) w
  let s0 := rotr32 s.a 2 ^^^ rotr32 s.a 13 ^^^ rotr32 s.a 22
  let maj := (s.a &&& s.b) ^^^ (s.a &&& s.c) ^^^ (s.b &&& s.c)
  let t2 := add32 s0 maj
  ⟨add32 t1 t2, s.a, s.b, s.c, add32 s.d t1, s.e, s.f, s.g⟩

/-- Big-endian 32-bit words of a block of bytes. -/
def beWords : Bytes → List Nat
  | b0 :: b1 :: b2 :: b3 :: rest =>
    ((b0 * 16777216 + b1 * 65536 + b2 * 256 + b3) % 4294967296) :: beWords rest
  | _ => []

/-- Extend the message schedule by `n` words. -/
def shaSchedule : Nat → List Nat → List Nat
  | 0, w => w
  | n + 1, w =>
    let i := w.length
    let w15 := w.getD (i - 15) 0
    let w2 := w.getD (i - 2) 0
    let s0 := rotr32 w15 7 ^^^ rotr32 w15 18 ^^^ (w15 >>> 3)
    let s1 := rotr32 w2 17 ^^^ rotr32 w2 19 ^^^ (w2 >>> 10)
    shaSchedule n (w ++ [add32 (add32 (add32 (w.getD (i - 16) 0) s0) (w.getD (i - 7) 0)) s1])

/-- Run the rounds over the paired round constants and schedule words. -/
def shaRounds (s : ShaState) : List (Nat × Nat) → ShaState
  | [] => s
  | (k, w) :: rest => shaRounds (shaRound s k w) rest

/-- Compression of one 64-byte block into the chaining value. -/
def shaCompress (hv : ShaState) (block : Bytes) : ShaState :=
  let w := shaSchedule 48 (beWords block)
  let r := shaRounds hv (sha256K.zip w)
  ⟨add32 hv.a r.a, add32 hv.b r.b, add32 hv.c r.c, add32 hv.d r.d,
   add32 hv.e r.e, add32 hv.f r.f, add32 hv.g r.g, add32 hv.h r.h⟩

/-- Compress `n` successive 64-byte blocks. -/
def shaBlocks : Nat → Bytes → ShaState → ShaState
  | 0, _, hv => hv
  | n + 1, bs, hv => shaBlocks n (bs.drop 64) (shaCompress hv (bs.take 64))

/-- Big-endian bytes of a 32-bit word. -/
def be32 (w : Nat) : Bytes :=
  [w / 16777216 % 256, w / 65536 % 256, w / 256 % 256, w % 256]

/-- Big-endian bytes of a 64-bit word. -/
def be64 (w : Nat) : Bytes :=
  be32 (w / 4294967296 % 4294967296) ++ be32 (w % 4294967296)

/-- The message followed by the SHA-256 padding: 0x80, zeros up to 56 mod 64, and the bit
length as a 64-bit big-endian word. -/
def shaPad (msg : Bytes) : Bytes :=
  msg ++ [0x80] ++ List.replicate ((119 - msg.length % 64) % 64) 0
    ++ be64 (msg.length * 8 % 18446744073709551616)

/-- SHA-256 digest, 32 bytes. -/
def sha256 (msg : Bytes) : Bytes :=
  let p := shaPad msg
  let r := shaBlocks (p.length / 64) p shaInit
  be32 r.a ++ be32 r.b ++ be32 r.c ++ be32 r.d ++ be32 r.e ++ be32 r.f ++ be32 r.g ++ be32 r.h

/-- Go `hmac.New(sha256.New, key)` followed by `Write(msg)` and `Sum(nil)`: a key longer
than the 64-byte block is hashed first, then padded with zeros to the block size. -/
def hmacSha256 (key msg : Bytes) : Bytes :=
  let k0 := if key.length > 64 then sha256 key else key
  let k := k0 ++ List.replicate (64 - k0.length) 0
  let ipad := k.map (fun b => b ^^^ 0x36)
  let opad := k.map (fun b => b ^^^ 0x5c)
  sha256 (opad ++ sha256 (ipad ++ msg))

/-! ## Signer and verifier -/

/-- `signAuditPayload` of `src/service/audit_export.go`: hex of the HMAC-SHA256 of
`timestamp`, `"."`, `payload` written in this order. -/
def signAuditPayload (secret timestamp payload : Bytes) : Bytes :=
  hexEncode (hmacSha256 secret (timestamp ++ lit "." ++ payload))

/-- `verifyNewAPISignature` of `src/cmd/audit-server/handlers.go`. -/
def verifyNewAPISignature (secret timestamp payload sigHeader : Bytes) : Bool :=
  if secret = [] then true
  else
    let sig := trimLeading (lit "sha256=") (trimSpace sigHeader)
    match hexDecode sig with
    | none => false
    | some recv =>
      if recv.length = 0 then false
      else
        let expected := hmacSha256 secret (timestamp ++ lit "." ++ payload)
        decide (expected = recv)

/-! ## 64-bit integers and number parsing -/

/-- Largest `int64`. -/
def maxInt64 : Int := 9223372036854775807

/-- Smallest `int64`. -/
def minInt64 : Int := -9223372036854775808

/-- The `int64` that Go arithmetic yields for the mathematical result `x` (two's complement
wrap-around). -/
def wrapInt64 (x : Int) : Int :=
  (x + 9223372036854775808) % 18446744073709551616 - 9223372036854775808

/-- `absInt64` of `handlers.go`; the negation is Go's wrapping negation. -/
def absInt64 (v : Int) : Int :=
  if v < 0 then wrapInt64 (-v) else v

/-- The two errors of Go `strconv`: `ErrSyntax` and `ErrRange`. -/
inductive NumError where
  | invalid
  | outOfRange
deriving DecidableEq, Repr

/-- The digit loop of Go `strconv.ParseUint(s, 10, 64)`: a byte that is not a decimal digit
is a syntax error (value 0), a value above 2^64-1 a range error (value 2^64-1), reported
at the digit where it is met. -/
def parseUintLoop : Bytes → Nat → Nat × Option NumError
  | [], n => (n, none)
  | c :: rest, n =>
    if 48 ≤ c ∧ c ≤ 57 then
      if n ≥ 1844674407370955162 then (18446744073709551615, some NumError.outOfRange)
      else if n * 10 + (c - 48) > 18446744073709551615 then
        (18446744073709551615, some NumError.outOfRange)
      else parseUintLoop rest (n * 10 + (c - 48))
    else (0, some NumError.invalid)

/-- Go `strconv.ParseUint(s, 10, 64)`. -/
def strconvParseUint (s : Bytes) : Nat × Option NumError :=
  if s = [] then (0, some NumError.invalid) else parseUintLoop s 0

/-- Go `strconv.ParseInt(s, 10, 64)`: the value and the error (`none` for nil).  On a range
error the value is the nearest bound, on a syntax error 0. -/
def strconvParseInt (s : Bytes) : Int × Option NumError :=
  match s with
  | [] => (0, some NumError.invalid)
  | c :: rest =>
    let neg := decide (c = 45)
    let digits := if c = 43 ∨ c = 45 then rest else s
    match strconvParseUint digits with
    | (_, some NumError.invalid) => (0, some NumError.invalid)
    | (un, _) =>
      if neg = false ∧ un ≥ 9223372036854775808 then (maxInt64, some NumError.outOfRange)
      else if neg = true ∧ un > 9223372036854775808 then (minInt64, some NumError.outOfRange)
      else (if neg then -(un : Int) else (un : Int), none)

/-- `parseInt64` of `handlers.go`: the parse error is dropped. -/
def parseInt64 (v : Bytes) : Int :=
  let v := trimSpace v
  if v = [] then 0 else (strconvParseInt v).1

/-- `truncateString` of `handlers.go`: at most `max` bytes of `s`. -/
def truncateString (s : Bytes) (max : Int) : Bytes :=
  if max ≤ 0 then []
  else if (s.length : Int) ≤ max then s
  else s.take max.toNat

/-! ## Collector configuration -/

/-- `Config` of `config.go`.  `ShutdownTimeout` is a `time.Duration`, an `int64` count of
nanoseconds. -/
structure Config where
  ListenAddr : Bytes
  DBDriver : Bytes
  DBDSN : Bytes
  WebhookSecret : Bytes
  AuthToken : Bytes
  MaxBodyBytes : Int
  MaxSkewSeconds : Int
  ShutdownTimeout : Int
  TrustProxyHeaders : Bool
deriving DecidableEq, Repr

/-- `getEnv` of `config.go`; `env` is `os.Getenv`. -/
def getEnv (env : String → Bytes) (key : String) (defaultValue : Bytes) : Bytes :=
  let v := trimSpace (env key)
  if v ≠ [] then v else defaultValue

/-- `parseInt64Env` of `config.go`. -/
def parseInt64Env (env : String → Bytes) (key : String) (defaultValue : Int) : Int :=
  let v := trimSpace (env key)
  if v = [] then defaultValue
  else
    match strconvParseInt v with
    | (_, some _) => defaultValue
    | (parsed, none) => parsed

/-- `parseBoolEnv` of `config.go`; `toLower` is Go `strings.ToLower`. -/
def parseBoolEnv (env : String → Bytes) (toLower : Bytes → Bytes) (key : String)
    (defaultValue : Bool) : Bool :=
  let v := trimSpace (env key)
  if v = [] then defaultValue
  else
    let l := toLower v
    if l = lit "1" ∨ l = lit "true" ∨ l = lit "t" ∨ l = lit "yes" ∨ l = lit "y" ∨ l = lit "on"
    then true
    else if l = lit "0" ∨ l = lit "false" ∨ l = lit "f" ∨ l = lit "no" ∨ l = lit "n"
      ∨ l = lit "off"
    then false
    else defaultValue

/-- `LoadConfig` of `config.go` over the environment `env`. -/
def LoadConfig (env : String → Bytes) (toLower : Bytes → Bytes) : Config :=
  let listenAddr := getEnv env "AUDIT_LISTEN_ADDR" (lit ":8081")
  let dbDriver := toLower (getEnv env "AUDIT_DB_DRIVER" (lit "sqlite"))
  let dbDSN := getEnv env "AUDIT_DB_DSN" (lit "audit.db")
  let maxBody := parseInt64Env env "AUDIT_MAX_BODY_BYTES" (2 * 1024 * 1024)
  let maxSkew := parseInt64Env env "AUDIT_MAX_SKEW_SECONDS" 300
  let shutdown := wrapInt64 (parseInt64Env env "AUDIT_SHUTDOWN_TIMEOUT_SECONDS" 10 * 1000000000)
  { ListenAddr := if trimSpace listenAddr = [] then lit ":8081" else listenAddr
    DBDriver := if trimSpace dbDriver = [] then lit "sqlite" else dbDriver
    DBDSN := if trimSpace dbDSN = [] then lit "audit.db" else dbDSN
    WebhookSecret := getEnv env "AUDIT_WEBHOOK_SECRET" []
    AuthToken := getEnv env "AUDIT_AUTH_TOKEN" []
    MaxBodyBytes := if maxBody < 1024 then 1024 else maxBody
    MaxSkewSeconds := if maxSkew < 0 then 0 else maxSkew
    ShutdownTimeout := if shutdown ≤ 0 then 10 * 1000000000 else shutdown
    TrustProxyHeaders := parseBoolEnv env toLower "AUDIT_TRUST_PROXY_HEADERS" false }

/-! ## Events, records and the store -/

/-- `NewAPIAuditEvent` of `model.go`; `Typ` is the field `Type`. -/
structure NewAPIAuditEvent where
  Typ : Bytes
  Timestamp : Int
  RequestId : Bytes
  Method : Bytes
  Path : Bytes
  StatusCode : Int
  DurationMs : Int
  UserId : Int
  Username : Bytes
  TokenId : Int
  TokenName : Bytes
  Group : Bytes
  ChannelId : Int
  ChannelName : Bytes
  ChannelType : Int
  Model : Bytes
  ContentType : Bytes
  RequestBody : Bytes
  RequestBodyEncoding : Bytes
  RequestBodyBytes : Int
  RequestBodyTruncated : Bool
deriving DecidableEq, Repr

/-- `AuditRecord` of `model.go`; `CreatedAt` is kept as Unix seconds. -/
structure AuditRecord where
  ID : Nat
  CreatedAt : Int
  RemoteIP : Bytes
  UserAgent : Bytes
  AuditTimestamp : Int
  Signature : Bytes
  EventType : Bytes
  EventTimestamp : Int
  RequestID : Bytes
  Method : Bytes
  Path : Bytes
  StatusCode : Int
  DurationMs : Int
  UserID : Int
  Username : Bytes
  TokenID : Int
  TokenName : Bytes
  UsingGroup : Bytes
  ChannelID : Int
  ChannelName : Bytes
  ChannelType : Int
  Model : Bytes
  ContentType : Bytes
  RequestBody : Bytes
  RequestBodyEncoding : Bytes
  RequestBodyBytes : Int
  RequestBodyTruncated : Bool
  RawPayload : Bytes
deriving DecidableEq, Repr

/-- Modelled from the spec: the Event Store behind `s.db` (gorm and the SQL database are
not part of the sources).  A single append-only collection keyed by an auto-incrementing
identifier; insert is the only mutation and may fail (connection error). -/
structure Db where
  rows : List AuditRecord
  nextID : Nat
  failing : Bool
deriving DecidableEq, Repr

/-- Modelled from the spec: `db.Create(&record)`.  The store assigns the identifier, higher
than any existing one, and the creation time; `none` is an insert error. -/
def Db.Create (db : Db) (record : AuditRecord) (createdAt : Int) : Option Db :=
  if db.failing then none
  else some { db with
    rows := db.rows ++ [{ record with ID := db.nextID, CreatedAt := createdAt }]
    nextID := db.nextID + 1 }

/-! ## The webhook handler -/

/-- An inbound body stream `r.Body`: the bytes it delivers, and whether it then ends with
a read error instead of EOF. -/
structure BodyStream where
  data : Bytes
  broken : Bool
deriving DecidableEq, Repr

/-- The parts of `*http.Request` the handler reads.  A header that is absent reads as the
empty string (`Header.Get`). -/
structure Request where
  Body : Option BodyStream
  auditTimestamp : Bytes
  auditSignature : Bytes
  forwardedFor : Bytes
  realIP : Bytes
  userAgent : Bytes
  RemoteAddr : Bytes
deriving DecidableEq, Repr

/-- Functions of other packages that the handler calls: `common.Unmarshal` into a
`NewAPIAuditEvent` (`none` is an error) and the host part of `net.SplitHostPort` (`none`
is an error). -/
structure Ext where
  unmarshal : Bytes → Option NewAPIAuditEvent
  splitHost : Bytes → Option Bytes

/-- Go `io.ReadAll(io.LimitReader(body, n))`: nothing is read when `n ≤ 0`; otherwise at
most `n` bytes, and the read error of a broken stream is met only if the stream ends
before `n` bytes.  `none` is a non-nil error. -/
def readAllLimited (body : BodyStream) (n : Int) : Option Bytes :=
  if n ≤ 0 then some []
  else if body.broken ∧ (body.data.length : Int) < n then none
  else some (body.data.take n.toNat)

/-- `getRemoteIP` of `handlers.go` for a non-nil request. -/
def getRemoteIP (ext : Ext) (cfg : Config) (r : Request) : Bytes :=
  let viaProxy : Option Bytes :=
    if cfg.TrustProxyHeaders then
      let xff := trimSpace r.forwardedFor
      let ip := trimSpace (xff.takeWhile (fun c => c ≠ 44))
      if xff ≠ [] ∧ ip ≠ [] then some (truncateString ip 128)
      else
        let xrip := trimSpace r.realIP
        if xrip ≠ [] then some (truncateString xrip 128) else none
    else none
  match viaProxy with
  | some ip => ip
  | none =>
    match ext.splitHost (trimSpace r.RemoteAddr) with
    | some host => if host ≠ [] then truncateString host 128
                   else truncateString (trimSpace r.RemoteAddr) 128
    | none => truncateString (trimSpace r.RemoteAddr) 128

/-- What one call of the handler did: the status code and body text written to the
client, the record handed to `db.Create` (if the call got that far) and the store after
the call. -/
structure WebhookResult where
  status : Nat
  body : String
  created : Option AuditRecord
  db : Db
deriving DecidableEq, Repr

/-- The record literal built at lines 129-162 of `handlers.go`. -/
def buildRecord (ext : Ext) (cfg : Config) (r : Request) (tsHeader sigHeader body : Bytes)
    (event : NewAPIAuditEvent) : AuditRecord :=
  { ID := 0
    CreatedAt := 0
    RemoteIP := getRemoteIP ext cfg r
    UserAgent := truncateString (trimSpace r.userAgent) 512
    AuditTimestamp := parseInt64 tsHeader
    Signature := truncateString sigHeader 128
    EventType := truncateString event.Typ 64
    EventTimestamp := event.Timestamp
    RequestID := truncateString event.RequestId 64
    Method := truncateString event.Method 16
    Path := truncateString event.Path 512
    StatusCode := event.StatusCode
    DurationMs := event.DurationMs
    UserID := event.UserId
    Username := truncateString event.Username 128
    TokenID := event.TokenId
    TokenName := truncateString event.TokenName 256
    UsingGroup := truncateString event.Group 128
    ChannelID := event.ChannelId
    ChannelName := truncateString event.ChannelName 256
    ChannelType := event.ChannelType
    Model := truncateString event.Model 256
    ContentType := truncateString event.ContentType 256
    RequestBody := event.RequestBody
    RequestBodyEncoding := truncateString event.RequestBodyEncoding 16
    RequestBodyBytes := event.RequestBodyBytes
    RequestBodyTruncated := event.RequestBodyTruncated
    RawPayload := body }

/-- The signature block of the handler (lines 97-121 of `handlers.go`) for a non-empty
trimmed secret: the response of the first failed check, `none` when every check passed. -/
def checkSignature (cfg : Config) (now : Int) (secret tsHeader sigHeader body : Bytes) :
    Option (Nat × String) :=
  if tsHeader = [] ∨ sigHeader = [] then some (401, "missing signature\n")
  else
    match strconvParseInt tsHeader with
    | (_, some _) => some (401, "invalid timestamp\n")
    | (ts, none) =>
      if cfg.MaxSkewSeconds > 0 ∧ absInt64 (wrapInt64 (now - ts)) > cfg.MaxSkewSeconds then
        some (401, "timestamp skew too large\n")
      else if verifyNewAPISignature secret tsHeader body sigHeader = false then
        some (401, "invalid signature\n")
      else none

/-- `handleNewAPIWebhook` of `handlers.go`.  `now` is `time.Now().Unix()`, `db` the store
before the call, `r` the request (`none` for a nil pointer). -/
def handleNewAPIWebhook (ext : Ext) (cfg : Config) (now : Int) (db : Db)
    (r : Option Request) : WebhookResult :=
  match r with
  | none => ⟨400, "", none, db⟩
  | some r =>
    match r.Body with
    | none => ⟨400, "empty body\n", none, db⟩
    | some stream =>
      match readAllLimited stream (wrapInt64 (cfg.MaxBodyBytes + 1)) with
      | none => ⟨400, "read body failed\n", none, db⟩
      | some body =>
        if (body.length : Int) > cfg.MaxBodyBytes then ⟨413, "payload too large\n", none, db⟩
        else
          let tsHeader := trimSpace r.auditTimestamp
          let sigHeader := trimSpace r.auditSignature
          let secret := trimSpace cfg.WebhookSecret
          let auth : Option (Nat × String) :=
            if secret ≠ [] then checkSignature cfg now secret tsHeader sigHeader body else none
          match auth with
          | some (code, msg) => ⟨code, msg, none, db⟩
          | none =>
            match ext.unmarshal body with
            | none => ⟨400, "invalid json\n", none, db⟩
            | some event =>
              let record := buildRecord ext cfg r tsHeader sigHeader body event
              match db.Create record now with
              | none => ⟨500, "store failed\n", some record, db⟩
              | some db1 => ⟨204, "", some record, db1⟩

/-! ## The body tap -/

/-- The errors an `io.ReadCloser` can return that matter here: `io.EOF` or another
error. -/
inductive IoError where
  | eof
  | other
deriving DecidableEq, Repr

/-- What one call `rc.Read(p)` of the underlying stream returned: the bytes `p[:n]` it
delivered (so `n` is their number) and its error. -/
structure ReadResult where
  data : Bytes
  err : Option IoError
deriving DecidableEq, Repr

/-- The state of `auditTapReadCloser` of `middleware/audit_export.go`; the underlying
`rc` is the environment.  `buf = none` is the nil buffer. -/
structure auditTapReadCloser where
  buf : Option Bytes
  limit : Int
  truncated : Bool
deriving DecidableEq, Repr

/-- `auditTapReadCloser.Read`: given what the underlying `Read` returned, the new tap
state and what the tap returns to its caller. -/
def auditTapReadCloser.Read (t : auditTapReadCloser) (under : ReadResult) :
    auditTapReadCloser × ReadResult :=
  let n : Int := under.data.length
  match t.buf with
  | none => (t, under)
  | some captured =>
    if n ≤ 0 ∨ t.limit ≤ 0 ∨ t.truncated = true then (t, under)
    else
      let remaining : Int := t.limit - captured.length
      if remaining ≤ 0 then ({ t with truncated := true }, under)
      else
        let toCopy : Int := if n > remaining then remaining else n
        let t1 : auditTapReadCloser :=
          if n > remaining then { t with truncated := true } else t
        let t2 : auditTapReadCloser :=
          { t1 with buf := some (captured ++ under.data.take toCopy.toNat) }
        (if n > remaining then { t2 with truncated := true } else t2, under)

/-- `auditTapReadCloser.Close`: the result of closing the underlying stream. -/
def auditTapReadCloser.Close (_t : auditTapReadCloser) (underClose : Option IoError) :
    Option IoError :=
  underClose

/-- The tap state after the host has made the `Read` calls whose underlying results are
`reads`, in this order. -/
def readThrough (t : auditTapReadCloser) (reads : List ReadResult) : auditTapReadCloser :=
  reads.foldl (fun st u => (st.Read u).1) t

/-- The bytes delivered by a sequence of underlying `Read` calls, in order. -/
def streamOf : List ReadResult → Bytes
  | [] => []
  | u :: rest => u.data ++ streamOf rest

/-- A fresh tap as `AuditExport` builds it for a positive limit. -/
def newTap (limit : Int) : auditTapReadCloser :=
  { buf := some [], limit := limit, truncated := false }

/-! ## The list queries of the collector -/

/-- Go `strconv.Atoi` on a 64-bit platform: the value and error of `ParseInt(s, 10, 0)`;
its fast path for short strings computes the same. -/
def strconvAtoi (s : Bytes) : Int × Option NumError :=
  strconvParseInt s

/-- `parseInt` of `handlers.go`. -/
def parseInt (v : Bytes) (defaultValue : Int) : Int :=
  let v := trimSpace v
  if v = [] then defaultValue
  else
    match strconvAtoi v with
    | (_, some _) => defaultValue
    | (i, none) => i

/-- `parseUint64` of `handlers.go`: the parse error is dropped, so a syntax error reads
as 0 and a range error as 2^64-1. -/
def parseUint64 (v : Bytes) : Nat :=
  let v := trimSpace v
  if v = [] then 0 else (strconvParseUint v).1

/-- `AuditRecordSummary` of `model.go`: the record without its raw payload. -/
structure AuditRecordSummary where
  ID : Nat
  CreatedAt : Int
  RemoteIP : Bytes
  UserAgent : Bytes
  AuditTimestamp : Int
  Signature : Bytes
  EventType : Bytes
  EventTimestamp : Int
  RequestID : Bytes
  Method : Bytes
  Path : Bytes
  StatusCode : Int
  DurationMs : Int
  UserID : Int
  Username : Bytes
  TokenID : Int
  TokenName : Bytes
  UsingGroup : Bytes
  ChannelID : Int
  ChannelName : Bytes
  ChannelType : Int
  Model : Bytes
  ContentType : Bytes
  RequestBody : Bytes
  RequestBodyEncoding : Bytes
  RequestBodyBytes : Int
  RequestBodyTruncated : Bool
deriving DecidableEq, Repr

/-- `AuditRecord.Summary` of `model.go`. -/
def AuditRecord.Summary (r : AuditRecord) : AuditRecordSummary :=
  { ID := r.ID
    CreatedAt := r.CreatedAt
    RemoteIP := r.RemoteIP
    UserAgent := r.UserAgent
    AuditTimestamp := r.AuditTimestamp
    Signature := r.Signature
    EventType := r.EventType
    EventTimestamp := r.EventTimestamp
    RequestID := r.RequestID
    Method := r.Method
    Path := r.Path
    StatusCode := r.StatusCode
    DurationMs := r.DurationMs
    UserID := r.UserID
    Username := r.Username
    TokenID := r.TokenID
    TokenName := r.TokenName
    UsingGroup := r.UsingGroup
    ChannelID := r.ChannelID
    ChannelName := r.ChannelName
    ChannelType := r.ChannelType
    Model := r.Model
    ContentType := r.ContentType
    RequestBody := r.RequestBody
    RequestBodyEncoding := r.RequestBodyEncoding
    RequestBodyBytes := r.RequestBodyBytes
    RequestBodyTruncated := r.RequestBodyTruncated }

/-- Rows in descending identifier order (`ORDER BY id DESC`). -/
def sortDesc (rows : List AuditRecord) : List AuditRecord :=
  rows.insertionSort (fun a b => b.ID ≤ a.ID)

/-- Descending identifier order compares any two rows. -/
instance descTotal : IsTotal AuditRecord (fun a b => b.ID ≤ a.ID) :=
  ⟨fun a b => Nat.le_total b.ID a.ID⟩

/-- Descending identifier order is transitive. -/
instance descTrans : IsTrans AuditRecord (fun a b => b.ID ≤ a.ID) :=
  ⟨fun _ _ _ h1 h2 => Nat.le_trans h2 h1⟩

/-- Strictly descending identifier order never holds both ways. -/
instance descAntisymm : IsAntisymm AuditRecord (fun a b => b.ID < a.ID) :=
  ⟨fun _ _ h1 h2 => absurd h1 (Nat.lt_asymm h2)⟩

/-- The `uint64` values a list handler binds to the placeholders of its query: `beforeID`
when the clause `id < ?` is added (the other placeholders take a string or an `int`). -/
def boundUints (beforeID : Nat) : List Nat :=
  if beforeID > 0 then [beforeID] else []

/-- Modelled from the spec: the query `Order("id desc")`, `Where(...)`, `Limit(n)`,
`Find(&records)` on the Event Store (gorm and the SQL database are not part of the
sources).  The rows that satisfy every condition, ordered by identifier descending, cut to
the first `limit` rows; `none` is a query error.  `uints` are the `uint64` values bound to
placeholders: Go `database/sql` turns every argument into a driver value and refuses a
`uint64` with the high bit set (2^63 and above), so on the default sqlite store such an
argument makes the query fail.  The handlers only pass limits of at least 1. -/
def Db.Find (db : Db) (uints : List Nat) (conds : List (AuditRecord → Bool)) (limit : Int) :
    Option (List AuditRecord) :=
  if db.failing || uints.any (fun u => decide (9223372036854775808 ≤ u)) then none
  else some ((sortDesc (db.rows.filter (fun r => conds.all (fun c => c r)))).take limit.toNat)

/-- The query parameters the list handlers read with `r.URL.Query().Get`; a parameter
that is absent reads as the empty string. -/
structure ListQuery where
  limit : Bytes
  before_id : Bytes
  request_id : Bytes
  path : Bytes
  user_id : Bytes
  status_code : Bytes
deriving DecidableEq, Repr

/-- The JSON document `handleEventsListAPI` writes, with its status code.  The error
document has only `success` and `message`; `data` and `next_before_id` are then left
empty and 0 here. -/
structure ListResult where
  status : Nat
  success : Bool
  message : String
  data : List AuditRecordSummary
  next_before_id : Nat
deriving DecidableEq, Repr

/-- The clamp of the `limit` parameter in both list handlers. -/
def clampLimit (limit : Int) : Int :=
  let limit := if limit < 1 then 1 else limit
  if limit > 200 then 200 else limit

/-- One optional `Where` clause: the condition `c` when `applies`, nothing otherwise. -/
def whereIf (applies : Bool) (c : AuditRecord → Bool) : List (AuditRecord → Bool) :=
  if applies then [c] else []

/-- The `Where` conditions `handleEventsListAPI` adds for the query `q`. -/
def listConditions (q : ListQuery) : List (AuditRecord → Bool) :=
  let beforeID := parseUint64 q.before_id
  let requestID := trimSpace q.request_id
  let path := trimSpace q.path
  let userIDStr := trimSpace q.user_id
  let statusStr := trimSpace q.status_code
  whereIf (decide (beforeID > 0)) (fun r => decide (r.ID < beforeID))
  ++ whereIf (decide (requestID ≠ [])) (fun r => decide (r.RequestID = requestID))
  ++ whereIf (decide (path ≠ [])) (fun r => decide (r.Path = path))
  ++ whereIf (decide (userIDStr ≠ [] ∧ parseInt userIDStr 0 > 0))
      (fun r => decide (r.UserID = parseInt userIDStr 0))
  ++ whereIf (decide (statusStr ≠ [] ∧ parseInt statusStr 0 > 0))
      (fun r => decide (r.StatusCode = parseInt statusStr 0))

/-- The rows a list query asks for, in the words of the specification: identifier below
`before_id` (any identifier when `before_id` is 0 or absent), and, for each equality
filter that applies, exactly the given value: request id, path, user id (it applies only
for a positive integer that `Atoi` reads, so one that fits a Go `int`) and status code
(likewise). -/
def specMatches (q : ListQuery) (r : AuditRecord) : Prop :=
  (parseUint64 q.before_id = 0 ∨ r.ID < parseUint64 q.before_id)
  ∧ (trimSpace q.request_id ≠ [] → r.RequestID = trimSpace q.request_id)
  ∧ (trimSpace q.path ≠ [] → r.Path = trimSpace q.path)
  ∧ (∀ n, 0 < n → strconvAtoi (trimSpace q.user_id) = (n, none) → r.UserID = n)
  ∧ (∀ n, 0 < n → strconvAtoi (trimSpace q.status_code) = (n, none) → r.StatusCode = n)

/-- The identifier of the last row of a page, 0 for an empty page. -/
def lastID (records : List AuditRecord) : Nat :=
  match records.getLast? with
  | some r => r.ID
  | none => 0

/-- `handleEventsListAPI` of `handlers.go`.  `beforeID` is bound to the clause `id < ?` as
a `uint64`, so the query fails for a `before_id` that reads as 2^63 or more.
`common.Marshal` of the response map does not fail for these values, so the
`marshal failed` branch of `writeJSON` is left out. -/
def handleEventsListAPI (db : Db) (q : ListQuery) : ListResult :=
  let limit := clampLimit (parseInt q.limit 50)
  let beforeID := parseUint64 q.before_id
  match db.Find (boundUints beforeID) (listConditions q) limit with
  | none => ⟨500, false, "query failed", [], 0⟩
  | some records => ⟨200, true, "", records.map AuditRecord.Summary, lastID records⟩

/-- `ListPageData` of `handlers.go`. -/
structure ListPageData where
  Events : List AuditRecord
  Limit : Int
  RequestID : Bytes
  BeforeID : Nat
  NextBeforeID : Nat
deriving DecidableEq, Repr

/-- What `handleEventsListPage` did: the status code, the error text if any, and the data
handed to the `list.html` template. -/
structure ListPageResult where
  status : Nat
  body : String
  page : Option ListPageData
deriving DecidableEq, Repr

/-- `handleEventsListPage` of `handlers.go`; `render` tells whether executing the template
on the data succeeds.  The query binds `beforeID` as `handleEventsListAPI` does. -/
def handleEventsListPage (render : ListPageData → Bool) (db : Db) (q : ListQuery) :
    ListPageResult :=
  let limit := clampLimit (parseInt q.limit 100)
  let beforeID := parseUint64 q.before_id
  let requestID := trimSpace q.request_id
  let conds : List (AuditRecord → Bool) :=
    whereIf (decide (beforeID > 0)) (fun r => decide (r.ID < beforeID))
    ++ whereIf (decide (requestID ≠ [])) (fun r => decide (r.RequestID = requestID))
  match db.Find (boundUints beforeID) conds limit with
  | none => ⟨500, "query failed\n", none⟩
  | some records =>
    let data : ListPageData := ⟨records, limit, requestID, beforeID, lastID records⟩
    if render data then ⟨200, "", some data⟩ else ⟨500, "render failed\n", some data⟩

/-- Go `strconv.FormatUint(n, 10)`: the decimal digits of `n`, most significant first. -/
def formatUint (n : Nat) : Bytes :=
  if n = 0 then [48] else ((Nat.digits 10 n).reverse).map (fun d => d + 48)

/-- The store after the records of `arrivals` were inserted one by one with `db.Create`
(an insert that fails changes nothing). -/
def Db.insertAll (db : Db) (arrivals : List AuditRecord) (now : Int) : Db :=
  arrivals.foldl (fun d r => (d.Create r now).getD d) db

/-- A client paging backward through `GET /api/events`: it asks for the page before
`before`, stops at an empty page, and otherwise asks again with `before_id` set to the
`next_before_id` of the response; before each further call the next batch of `arrivals`
is inserted into the store.  The result is the rows visited, `none` when `fuel` calls did
not reach an empty page. -/
def crawl (limit : Bytes) : Nat → Db → List (List AuditRecord) → Nat →
    Option (List AuditRecordSummary)
  | 0, _, _, _ => none
  | fuel + 1, db, arrivals, before =>
    let res := handleEventsListAPI db ⟨limit, formatUint before, [], [], [], []⟩
    if res.data.isEmpty then some []
    else
      (crawl limit fuel (db.insertAll (arrivals.headD []) 0) arrivals.tail
        res.next_before_id).map (fun visited => res.data ++ visited)

/-! ## The exporting middleware -/

/-- `service.AuditEvent` of `service/audit_export.go`: the same fields and JSON names as
`NewAPIAuditEvent`. -/
abbrev AuditEvent := NewAPIAuditEvent

/-- `auditBodyMaxHardLimitBytes` of `middleware/audit_export.go`. -/
def auditBodyMaxHardLimitBytes : Int := 1024 * 1024

/-- The package-level settings of `common` that `AuditExport` reads. -/
structure AuditSettings where
  LogRequestBodyEnabled : Bool
  AuditWebhookUrl : Bytes
  LogRequestBodyMaxBytes : Int
deriving DecidableEq, Repr

/-- The parts of the inbound `c.Request` that `AuditExport` reads: the method, whether
`Body` is non-nil, the `Content-Type` header and the URL path (`none` for a nil URL). -/
structure HostRequest where
  Method : Bytes
  hasBody : Bool
  contentType : Bytes
  urlPath : Option Bytes
deriving DecidableEq, Repr

/-- What happened during `c.Next()`: the results of the underlying `Read` for each `Read`
call the host made on the request body, the response status, the values the handlers
left in the gin context, and the clock readings taken afterwards. -/
structure HostRun where
  reads : List ReadResult
  status : Int
  requestID : Bytes
  userId : Int
  username : Bytes
  tokenId : Int
  tokenName : Bytes
  group : Bytes
  channelId : Int
  channelName : Bytes
  channelType : Int
  originalModel : Bytes
  finishedAt : Int
  durationMs : Int
deriving DecidableEq, Repr

/-- Standard-library functions `AuditExport` calls on the captured bytes: `utf8.Valid` and
`base64.StdEncoding.EncodeToString`. -/
structure Codec where
  utf8Valid : Bytes → Bool
  base64 : Bytes → Bytes

/-- Go `strings.Contains`. -/
def stringsContains : Bytes → Bytes → Bool
  | [], sub => sub.isEmpty
  | c :: rest, sub => sub.isPrefixOf (c :: rest) || stringsContains rest sub

/-- The mirror limit `maxBytes` that `AuditExport` computes (lines 76-89): the configured
`LogRequestBodyMaxBytes` clamped to 0 .. `auditBodyMaxHardLimitBytes`, and 0 for a
multipart content type. -/
def mirrorLimit (settings : AuditSettings) (contentType : Bytes) : Int :=
  let skipBodyCapture := stringsContains contentType (lit "multipart/form-data")
  let maxBytes := settings.LogRequestBodyMaxBytes
  let maxBytes := if maxBytes < 0 then 0 else maxBytes
  let maxBytes := if maxBytes > auditBodyMaxHardLimitBytes then auditBodyMaxHardLimitBytes
    else maxBytes
  if skipBodyCapture then 0 else maxBytes

/-- `AuditExport` of `middleware/audit_export.go`: the event handed to
`service.ExportAuditEvent` after the host has served the request, `none` when the
middleware only calls `c.Next()`.  `req` is `none` for a nil `c.Request`; `run` is what
the host did inside `c.Next()`, its body reads going through the tap. -/
def AuditExport (codec : Codec) (settings : AuditSettings) (req : Option HostRequest)
    (run : HostRun) : Option AuditEvent :=
  if settings.LogRequestBodyEnabled = false then none
  else if trimSpace settings.AuditWebhookUrl = [] then none
  else
    match req with
    | none => none
    | some r =>
      if r.hasBody = false ∨ r.Method = lit "GET" then none
      else
        let maxBytes := mirrorLimit settings r.contentType
        let buf : Option Bytes := if maxBytes > 0 then some [] else none
        let tap := readThrough { buf := buf, limit := maxBytes, truncated := false } run.reads
        let bodyBytes : Bytes := tap.buf.getD []
        let valid := codec.utf8Valid bodyBytes
        let bodyEncoding : Bytes :=
          if bodyBytes.length > 0 ∧ valid = false then lit "base64" else lit "utf8"
        let bodyPreview : Bytes :=
          if bodyBytes.length > 0 then
            (if valid then bodyBytes else codec.base64 bodyBytes)
          else []
        some
          { Typ := lit "request_audit"
            Timestamp := run.finishedAt
            RequestId := run.requestID
            Method := r.Method
            Path := r.urlPath.getD []
            StatusCode := run.status
            DurationMs := run.durationMs
            UserId := run.userId
            Username := run.username
            TokenId := run.tokenId
            TokenName := run.tokenName
            Group := run.group
            ChannelId := run.channelId
            ChannelName := run.channelName
            ChannelType := run.channelType
            Model := run.originalModel
            ContentType := r.contentType
            RequestBody := bodyPreview
            RequestBodyEncoding := bodyEncoding
            RequestBodyBytes := (bodyBytes.length : Int)
            RequestBodyTruncated := tap.truncated }

/-! ## Fixtures for the scenarios -/

/-- The body of the specification's scenario. -/
def scenarioBody : Bytes :=
  lit "\x7b\"type\":\"request_audit\",\"timestamp\":1700000000\x7d"

/-- An event with every field at its zero value. -/
def emptyEvent : NewAPIAuditEvent :=
  ⟨[], 0, [], [], [], 0, 0, 0, [], 0, [], [], 0, [], 0, [], [], [], [], 0, false⟩

/-- The event that `scenarioBody` decodes to. -/
def scenarioEvent : NewAPIAuditEvent :=
  { emptyEvent with Typ := lit "request_audit", Timestamp := 1700000000 }

/-- A body whose `type` field is 65 bytes long. -/
def longTypeBody : Bytes :=
  lit "\x7b\"type\":\"" ++ List.replicate 65 97 ++ lit "\"\x7d"

/-- The event that `longTypeBody` decodes to. -/
def longTypeEvent : NewAPIAuditEvent :=
  { emptyEvent with Typ := List.replicate 65 97 }

/-- The external functions at the inputs the scenarios use: the JSON decoder on the two
bodies above (any other input, the empty one included, is an error here), and
`net.SplitHostPort` on `127.0.0.1:4000`. -/
def scenarioExt : Ext :=
  { unmarshal := fun b =>
      if b = scenarioBody then some scenarioEvent
      else if b = longTypeBody then some longTypeEvent
      else none
    splitHost := fun a => if a = lit "127.0.0.1:4000" then some (lit "127.0.0.1") else none }

/-- A collector configuration with the defaults of `LoadConfig` and the given secret. -/
def scenarioConfig (secret : Bytes) : Config :=
  { ListenAddr := lit ":8081", DBDriver := lit "sqlite", DBDSN := lit "audit.db"
    WebhookSecret := secret, AuthToken := []
    MaxBodyBytes := 2097152, MaxSkewSeconds := 300
    ShutdownTimeout := 10000000000, TrustProxyHeaders := false }

/-- A request with the given body and audit headers. -/
def scenarioRequest (body tsHeader sigHeader : Bytes) : Request :=
  { Body := some ⟨body, false⟩, auditTimestamp := tsHeader, auditSignature := sigHeader
    forwardedFor := [], realIP := [], userAgent := lit "Go-http-client/1.1"
    RemoteAddr := lit "127.0.0.1:4000" }

/-- An empty store. -/
def emptyDb : Db := ⟨[], 1, false⟩

/-- A record that has only an identifier. -/
def recordWithID (id : Nat) : AuditRecord :=
  ⟨id, 0, [], [], 0, [], [], 0, [], [], [], 0, 0, 0, [], 0, [], [], 0, [], 0, [], [], [], [],
    0, false, []⟩

/-- A store holding one record for each of the given identifiers. -/
def storeOfIDs (ids : List Nat) (nextID : Nat) : Db :=
  ⟨ids.map recordWithID, nextID, false⟩

/-- A list query with only `limit` and `before_id`. -/
def pageQuery (limit before : Bytes) : ListQuery :=
  ⟨limit, before, [], [], [], []⟩

/-- Settings with body logging on, a webhook URL and the given mirror limit. -/
def scenarioSettings (limit : Int) : AuditSettings :=
  ⟨true, lit "http://127.0.0.1:8081/webhook/newapi", limit⟩

/-- A POST to `/v1/chat` with the given content type. -/
def scenarioHostRequest (contentType : Bytes) : HostRequest :=
  ⟨lit "POST", true, contentType, some (lit "/v1/chat")⟩

/-- A host that read the body through the given underlying results and answered 200. -/
def scenarioRun (reads : List ReadResult) : HostRun :=
  ⟨reads, 200, [], 0, [], 0, [], [], 0, [], 0, [], 1700000000, 5⟩

/-- A codec that calls every byte string valid UTF-8. -/
def scenarioCodec : Codec :=
  ⟨fun _ => true, fun b => b⟩

/-! ## Facts about the library helpers -/

theorem stripLead_of_leadLen_zero (seqs : List Bytes) (n : Nat) (s : Bytes)
    (h : leadLen seqs s = 0) : stripLead seqs n s = s := by
  cases n with
  | zero => rfl
  | succ k => simp [stripLead, h]

theorem leadLen_spaceRunes_plain (c : Nat) (r : Bytes) (h1 : 33 ≤ c) (h2 : c < 128) :
    leadLen spaceRunes (c :: r) = 0 := by
  have hnone : spaceRunes.find? (fun q => q.isPrefixOf (c :: r)) = none := by
    rw [List.find?_eq_none]
    intro q hq
    simp only [spaceRunes, List.mem_cons, List.mem_singleton] at hq
    rcases hq with h | h | h | h | h | h | h | h | h | h | h | h | h | h | h | h | h | h | h
      | h | h | h | h | h | h | h <;>
      first
        | (subst h; simp [List.isPrefixOf]; omega)
        | simp at h
  simp [leadLen, hnone]

theorem leadLen_spaceRunes_rev_plain (c : Nat) (r : Bytes) (h1 : 33 ≤ c) (h2 : c < 128) :
    leadLen (spaceRunes.map List.reverse) (c :: r) = 0 := by
  have hnone : (spaceRunes.map List.reverse).find? (fun q => q.isPrefixOf (c :: r)) = none := by
    rw [List.find?_eq_none]
    intro q hq
    simp only [spaceRunes, List.map, List.reverse_cons, List.reverse_nil, List.nil_append,
      List.cons_append, List.mem_cons, List.mem_singleton] at hq
    rcases hq with h | h | h | h | h | h | h | h | h | h | h | h | h | h | h | h | h | h | h
      | h | h | h | h | h | h | h <;>
      first
        | (subst h; simp [List.isPrefixOf]; omega)
        | simp at h
  simp [leadLen, hnone]

/-- A non-empty string of printable ASCII bytes is left alone by `strings.TrimSpace`. -/
theorem trimSpace_plain (s : Bytes) (hne : s ≠ []) (h : ∀ x ∈ s, 33 ≤ x ∧ x < 128) :
    trimSpace s = s := by
  have hl : trimLeftSpace s = s := by
    cases s with
    | nil => exact absurd rfl hne
    | cons c r =>
      have hc := h c (List.mem_cons_self c r)
      exact stripLead_of_leadLen_zero _ _ _ (leadLen_spaceRunes_plain c r hc.1 hc.2)
  have hr : trimRightSpace s = s := by
    unfold trimRightSpace
    cases hrev : s.reverse with
    | nil => exact absurd (List.reverse_eq_nil_iff.mp hrev) hne
    | cons c r =>
      have hmem : c ∈ s := by
        have : c ∈ s.reverse := by rw [hrev]; exact List.mem_cons_self c r
        exact List.mem_reverse.mp this
      have hc := h c hmem
      rw [stripLead_of_leadLen_zero _ _ _ (leadLen_spaceRunes_rev_plain c r hc.1 hc.2)]
      rw [← hrev, List.reverse_reverse]
  unfold trimSpace
  rw [hl, hr]

theorem hexDigit_plain (d : Nat) (h : d < 16) : 33 ≤ hexDigit d ∧ hexDigit d < 128 := by
  unfold hexDigit
  split <;> omega

theorem fromHexChar_hexDigit (d : Nat) (h : d < 16) : fromHexChar (hexDigit d) = some d := by
  unfold hexDigit fromHexChar
  split
  · rw [if_pos (by omega)]
    congr 1
    omega
  · rw [if_neg (by omega), if_pos (by omega)]
    congr 1
    omega

theorem hexDigit_ne_s (d : Nat) (h : d < 16) : hexDigit d ≠ 115 := by
  unfold hexDigit
  split <;> omega

theorem hexEncode_plain (bs : Bytes) (hb : ∀ b ∈ bs, b < 256) :
    ∀ x ∈ hexEncode bs, 33 ≤ x ∧ x < 128 := by
  induction bs with
  | nil => intro x hx; simp [hexEncode] at hx
  | cons b rest ih =>
    intro x hx
    have hlt : b < 256 := hb b (List.mem_cons_self b rest)
    simp only [hexEncode, List.mem_cons] at hx
    rcases hx with h | h | h
    · subst h; exact hexDigit_plain _ (by omega)
    · subst h; exact hexDigit_plain _ (by omega)
    · exact ih (fun y hy => hb y (List.mem_cons_of_mem b hy)) x h

/-- Decoding what `hex.EncodeToString` produced gives the bytes back. -/
theorem hexDecode_hexEncode (bs : Bytes) (hb : ∀ b ∈ bs, b < 256) :
    hexDecode (hexEncode bs) = some bs := by
  induction bs with
  | nil => rfl
  | cons b rest ih =>
    have hlt : b < 256 := hb b (List.mem_cons_self b rest)
    have ih2 := ih (fun y hy => hb y (List.mem_cons_of_mem b hy))
    simp only [hexEncode, hexDecode, fromHexChar_hexDigit (b / 16) (by omega),
      fromHexChar_hexDigit (b % 16) (by omega), ih2]
    congr 2
    omega

theorem be32_lt (w : Nat) : ∀ b ∈ be32 w, b < 256 := by
  intro b hb
  simp only [be32, List.mem_cons, List.mem_singleton, List.mem_nil_iff, or_false] at hb
  rcases hb with h | h | h | h <;> subst h <;> exact Nat.mod_lt _ (by decide)

/-- A SHA-256 digest is 32 bytes long. -/
theorem sha256_length (msg : Bytes) : (sha256 msg).length = 32 := by
  simp [sha256, be32]

/-- Every byte of a SHA-256 digest is below 256. -/
theorem sha256_lt (msg : Bytes) : ∀ b ∈ sha256 msg, b < 256 := by
  intro b hb
  simp only [sha256, List.mem_append] at hb
  rcases hb with ((((((h | h) | h) | h) | h) | h) | h) | h <;> exact be32_lt _ b h

theorem hmacSha256_length (key msg : Bytes) : (hmacSha256 key msg).length = 32 :=
  sha256_length _

theorem hmacSha256_lt (key msg : Bytes) : ∀ b ∈ hmacSha256 key msg, b < 256 :=
  sha256_lt _

theorem hmacSha256_ne_nil (key msg : Bytes) : hmacSha256 key msg ≠ [] := by
  intro h
  have := hmacSha256_length key msg
  rw [h] at this
  simp at this

theorem trimLeading_append (pre s : Bytes) : trimLeading pre (pre ++ s) = s := by
  unfold trimLeading
  rw [if_pos (by simp)]
  simp

/-- The hex text of a non-empty byte string does not start with `sha256=`. -/
theorem trimLeading_sha256_hexEncode (bs : Bytes) (hb : ∀ b ∈ bs, b < 256) :
    trimLeading (lit "sha256=") (hexEncode bs) = hexEncode bs := by
  cases bs with
  | nil => rfl
  | cons b rest =>
    have hlt : b < 256 := hb b (List.mem_cons_self b rest)
    have hne := hexDigit_ne_s (b / 16) (by omega)
    unfold trimLeading
    rw [if_neg]
    simp only [lit, hexEncode]
    simp [List.isPrefixOf]
    intro h
    exact absurd h.symm hne

theorem hexEncode_ne_nil (bs : Bytes) (h : bs ≠ []) : hexEncode bs ≠ [] := by
  cases bs with
  | nil => exact absurd rfl h
  | cons b r => simp [hexEncode]

/-- Verification of the signer's own output, with or without the `sha256=` prefix. -/
theorem verify_of_signed (secret ts payload : Bytes) (hs : secret ≠ []) :
    verifyNewAPISignature secret ts payload (lit "sha256=" ++ signAuditPayload secret ts payload)
      = true
    ∧ verifyNewAPISignature secret ts payload (signAuditPayload secret ts payload) = true := by
  have hlt := hmacSha256_lt secret (ts ++ lit "." ++ payload)
  have hne := hmacSha256_ne_nil secret (ts ++ lit "." ++ payload)
  have hpl := hexEncode_plain _ hlt
  have henc_ne : hexEncode (hmacSha256 secret (ts ++ lit "." ++ payload)) ≠ [] :=
    hexEncode_ne_nil _ hne
  have hlen : (hmacSha256 secret (ts ++ lit "." ++ payload)).length ≠ 0 := by
    rw [hmacSha256_length]; decide
  constructor
  · unfold verifyNewAPISignature signAuditPayload
    · rw [if_neg hs]
      have htrim : trimSpace (lit "sha256=" ++ hexEncode (hmacSha256 secret
          (ts ++ lit "." ++ payload)))
          = lit "sha256=" ++ hexEncode (hmacSha256 secret (ts ++ lit "." ++ payload)) := by
        apply trimSpace_plain
        · simp [lit]
        · intro x hx
          rcases List.mem_append.mp hx with h | h
          · simp [lit] at h
            omega
          · exact hpl x h
      simp only [htrim, trimLeading_append, hexDecode_hexEncode _ hlt, if_neg hlen]
      simp
  · unfold verifyNewAPISignature signAuditPayload
    · rw [if_neg hs]
      simp only [trimSpace_plain _ henc_ne hpl, trimLeading_sha256_hexEncode _ hlt,
        hexDecode_hexEncode _ hlt, if_neg hlen]
      simp

set_option maxRecDepth 1000000 in
/-- Known answer for the embedded HMAC-SHA256: the signature of the specification's
scenario, as computed by an independent implementation. -/
theorem signAuditPayload_scenario_value :
    signAuditPayload (lit "s3cr3t") (lit "1700000000") scenarioBody
      = lit "3868f3554249dc5522b068b888f96c3e963525c8e9229ff2ccf6a6499bab1e13" := by
  decide

/-- Once a header is accepted for one payload, it is accepted for another payload exactly
when the two HMAC values coincide. -/
theorem verify_other_payload_iff (secret ts payload other sigHeader : Bytes)
    (hs : secret ≠ [])
    (h : verifyNewAPISignature secret ts payload sigHeader = true) :
    verifyNewAPISignature secret ts other sigHeader = true
      ↔ hmacSha256 secret (ts ++ lit "." ++ other)
          = hmacSha256 secret (ts ++ lit "." ++ payload) := by
  unfold verifyNewAPISignature at h ⊢
  rw [if_neg hs] at h ⊢
  dsimp only at h ⊢
  generalize hexDecode (trimLeading (lit "sha256=") (trimSpace sigHeader)) = decoded at h ⊢
  cases decoded with
  | none => simp at h
  | some recv =>
    simp only at h ⊢
    by_cases hl : recv.length = 0
    · rw [if_pos hl] at h; simp at h
    · rw [if_neg hl] at h ⊢
      simp only [decide_eq_true_eq] at h ⊢
      rw [h]

/-! ## Facts about the handler -/

theorem trimSpace_nil : trimSpace [] = [] := by decide

/-- When the signature block lets a request through, both headers are present, the
timestamp parsed and the signature verified. -/
theorem checkSignature_none (cfg : Config) (now : Int) (secret tsHeader sigHeader body : Bytes)
    (h : checkSignature cfg now secret tsHeader sigHeader body = none) :
    tsHeader ≠ [] ∧ sigHeader ≠ [] ∧ (strconvParseInt tsHeader).2 = none
      ∧ verifyNewAPISignature secret tsHeader body sigHeader = true := by
  unfold checkSignature at h
  split at h
  · simp at h
  · rename_i hhdr
    push_neg at hhdr
    split at h
    · simp at h
    · rename_i ts hparse
      split at h
      · simp at h
      · split at h
        · simp at h
        · rename_i hver
          refine ⟨hhdr.1, hhdr.2, ?_, ?_⟩
          · rw [hparse]
          · simpa using hver

/-- Every response of the signature block is a 401 with one of four bodies. -/
theorem checkSignature_some (cfg : Config) (now : Int) (secret tsHeader sigHeader body : Bytes)
    (code : Nat) (msg : String)
    (h : checkSignature cfg now secret tsHeader sigHeader body = some (code, msg)) :
    code = 401 ∧ (msg = "missing signature\n" ∨ msg = "invalid timestamp\n"
      ∨ msg = "timestamp skew too large\n" ∨ msg = "invalid signature\n") := by
  unfold checkSignature at h
  split at h
  · simp at h; simp [← h.1, ← h.2]
  · split at h
    · simp at h; simp [← h.1, ← h.2]
    · split at h
      · simp at h; simp [← h.1, ← h.2]
      · split at h
        · simp at h; simp [← h.1, ← h.2]
        · simp at h

/-- The handler once the body has been read and has passed the size check. -/
theorem handle_after_read (ext : Ext) (cfg : Config) (now : Int) (db : Db) (req : Request)
    (stream : BodyStream) (body : Bytes) (hbody : req.Body = some stream)
    (hread : readAllLimited stream (wrapInt64 (cfg.MaxBodyBytes + 1)) = some body)
    (hsize : (body.length : Int) ≤ cfg.MaxBodyBytes) :
    handleNewAPIWebhook ext cfg now db (some req) =
      match (if trimSpace cfg.WebhookSecret ≠ [] then
          checkSignature cfg now (trimSpace cfg.WebhookSecret) (trimSpace req.auditTimestamp)
            (trimSpace req.auditSignature) body else none) with
      | some (code, msg) => ⟨code, msg, none, db⟩
      | none =>
        match ext.unmarshal body with
        | none => ⟨400, "invalid json\n", none, db⟩
        | some event =>
          match db.Create (buildRecord ext cfg req (trimSpace req.auditTimestamp)
              (trimSpace req.auditSignature) body event) now with
          | none => ⟨500, "store failed\n", some (buildRecord ext cfg req
              (trimSpace req.auditTimestamp) (trimSpace req.auditSignature) body event), db⟩
          | some db1 => ⟨204, "", some (buildRecord ext cfg req
              (trimSpace req.auditTimestamp) (trimSpace req.auditSignature) body event), db1⟩ := by
  have hs : ¬ (body.length : Int) > cfg.MaxBodyBytes := by omega
  simp only [handleNewAPIWebhook, hbody, hread, if_neg hs]

/-- A call that hands no record to the store leaves the store as it was, and a call that
hands one over either leaves it as it was or leaves the result of `db.Create`. -/
theorem handle_db (ext : Ext) (cfg : Config) (now : Int) (db : Db) (r : Option Request) :
    ((handleNewAPIWebhook ext cfg now db r).created = none →
        (handleNewAPIWebhook ext cfg now db r).db = db)
    ∧ (∀ record, (handleNewAPIWebhook ext cfg now db r).created = some record →
        (handleNewAPIWebhook ext cfg now db r).db = db
        ∨ db.Create record now = some (handleNewAPIWebhook ext cfg now db r).db) := by
  cases r with
  | none => simp [handleNewAPIWebhook]
  | some req =>
    cases hb : req.Body with
    | none => simp [handleNewAPIWebhook, hb]
    | some stream =>
      cases hread : readAllLimited stream (wrapInt64 (cfg.MaxBodyBytes + 1)) with
      | none => simp [handleNewAPIWebhook, hb, hread]
      | some body =>
        by_cases hsize : (body.length : Int) ≤ cfg.MaxBodyBytes
        · rw [handle_after_read ext cfg now db req stream body hb hread hsize]
          generalize (if trimSpace cfg.WebhookSecret ≠ [] then
            checkSignature cfg now (trimSpace cfg.WebhookSecret) (trimSpace req.auditTimestamp)
              (trimSpace req.auditSignature) body else none) = auth
          cases auth with
          | some p => simp
          | none =>
            cases hu : ext.unmarshal body with
            | none => simp
            | some event =>
              cases hc : db.Create (buildRecord ext cfg req (trimSpace req.auditTimestamp)
                  (trimSpace req.auditSignature) body event) now with
              | none => simp [hc]
              | some db1 =>
                simp only [hc]
                refine ⟨by simp, ?_⟩
                intro record h
                simp only [Option.some.injEq] at h
                right
                rw [← h]
                exact hc
        · have hs : (body.length : Int) > cfg.MaxBodyBytes := by omega
          simp [handleNewAPIWebhook, hb, hread, hs]

theorem wrapInt64_of_range (x : Int) (h1 : minInt64 ≤ x) (h2 : x ≤ maxInt64) :
    wrapInt64 x = x := by
  unfold wrapInt64
  unfold minInt64 at h1
  unfold maxInt64 at h2
  omega

/-- Reading a sound stream that fits the limit returns all of it, provided the limit plus
one does not overflow. -/
theorem readAllLimited_fits (cfg : Config) (data : Bytes)
    (hlen : (data.length : Int) ≤ cfg.MaxBodyBytes) (hmax : cfg.MaxBodyBytes < maxInt64) :
    readAllLimited ⟨data, false⟩ (wrapInt64 (cfg.MaxBodyBytes + 1)) = some data := by
  have h0 : (0 : Int) ≤ cfg.MaxBodyBytes := le_trans (Int.ofNat_nonneg _) hlen
  have hw : wrapInt64 (cfg.MaxBodyBytes + 1) = cfg.MaxBodyBytes + 1 := by
    apply wrapInt64_of_range
    · unfold minInt64; omega
    · unfold maxInt64 at *; omega
  rw [hw]
  unfold readAllLimited
  rw [if_neg (by omega), if_neg (by simp)]
  have h3 : ((cfg.MaxBodyBytes + 1).toNat : Int) = cfg.MaxBodyBytes + 1 :=
    Int.toNat_of_nonneg (by omega)
  have h4 : data.length ≤ (cfg.MaxBodyBytes + 1).toNat := by omega
  simp only [List.take_of_length_le h4]

theorem truncateString_of_le (s : Bytes) (max : Int) (h : (s.length : Int) ≤ max)
    (hpos : 0 < max) : truncateString s max = s := by
  unfold truncateString
  rw [if_neg (by omega), if_pos h]

/-- Open mode away from the overflow of `MaxBodyBytes+1`: without a secret, a sound body
within the limit that parses is handed to the store whatever the headers are, and the
answer is 204 when the insert succeeds. -/
theorem open_mode_accepts (ext : Ext) (cfg : Config) (now : Int) (db : Db) (req : Request)
    (data : Bytes) (event : NewAPIAuditEvent)
    (hsecret : trimSpace cfg.WebhookSecret = []) (hbody : req.Body = some ⟨data, false⟩)
    (hlen : (data.length : Int) ≤ cfg.MaxBodyBytes) (hmax : cfg.MaxBodyBytes < maxInt64)
    (hparse : ext.unmarshal data = some event) :
    (handleNewAPIWebhook ext cfg now db (some req)).created
      = some (buildRecord ext cfg req (trimSpace req.auditTimestamp)
          (trimSpace req.auditSignature) data event)
    ∧ (db.failing = false →
      (handleNewAPIWebhook ext cfg now db (some req)).status = 204
      ∧ db.Create (buildRecord ext cfg req (trimSpace req.auditTimestamp)
          (trimSpace req.auditSignature) data event) now
        = some (handleNewAPIWebhook ext cfg now db (some req)).db) := by
  rw [handle_after_read ext cfg now db req ⟨data, false⟩ data hbody
    (readAllLimited_fits cfg data hlen hmax) hlen]
  have hs : ¬ trimSpace cfg.WebhookSecret ≠ [] := by simp [hsecret]
  simp only [if_neg hs, hparse]
  constructor
  · split <;> rfl
  · intro hf
    simp only [Db.Create, hf]
    simp

/-- A timestamp whose distance from `now` is within a skew bound that is an `int64` passes
the skew test of the handler. -/
theorem skew_test_passes (now ts skew : Int) (hcfg : skew ≤ maxInt64)
    (h1 : -skew ≤ now - ts) (h2 : now - ts ≤ skew) :
    ¬ (skew > 0 ∧ absInt64 (wrapInt64 (now - ts)) > skew) := by
  intro h
  have hw : wrapInt64 (now - ts) = now - ts := by
    apply wrapInt64_of_range
    · unfold minInt64; unfold maxInt64 at hcfg; omega
    · omega
  rw [hw] at h
  unfold absInt64 at h
  split at h
  · have hw2 : wrapInt64 (-(now - ts)) = -(now - ts) := by
      apply wrapInt64_of_range
      · unfold minInt64; unfold maxInt64 at hcfg; omega
      · omega
    rw [hw2] at h
    omega
  · omega

/-- With a non-empty secret, an accepted signature header is not empty. -/
theorem verify_sig_ne_nil (secret ts body : Bytes) (hs : secret ≠ [])
    (h : verifyNewAPISignature secret ts body [] = true) : False := by
  unfold verifyNewAPISignature at h
  rw [if_neg hs] at h
  have : hexDecode (trimLeading (lit "sha256=") (trimSpace [])) = some [] := by decide
  dsimp only at h
  rw [this] at h
  simp at h

/-- The signature header the sender emits survives `strings.TrimSpace`. -/
theorem trimSpace_signed (secret ts payload : Bytes) :
    trimSpace (lit "sha256=" ++ signAuditPayload secret ts payload)
      = lit "sha256=" ++ signAuditPayload secret ts payload := by
  apply trimSpace_plain
  · simp [lit]
  · intro x hx
    rcases List.mem_append.mp hx with h | h
    · simp [lit] at h
      omega
    · exact hexEncode_plain _ (hmacSha256_lt _ _) x h

/-- The handler on a scenario request that carries the sender's own signature for its
timestamp header and body, when the timestamp parses and passes the skew test. -/
theorem scenario_signed_accepted (now : Int) (secret ts body : Bytes)
    (event : NewAPIAuditEvent) (tsv : Int) (hsec : trimSpace secret = secret)
    (hne : secret ≠ []) (htrim : trimSpace ts = ts)
    (hparse : strconvParseInt ts = (tsv, none))
    (hskew : ¬ ((300 : Int) > 0 ∧ absInt64 (wrapInt64 (now - tsv)) > 300))
    (hlen : (body.length : Int) ≤ 2097152) (hu : scenarioExt.unmarshal body = some event) :
    handleNewAPIWebhook scenarioExt (scenarioConfig secret) now emptyDb
        (some (scenarioRequest body ts (lit "sha256=" ++ signAuditPayload secret ts body)))
      = ⟨204, "", some (buildRecord scenarioExt (scenarioConfig secret)
            (scenarioRequest body ts (lit "sha256=" ++ signAuditPayload secret ts body))
            ts (lit "sha256=" ++ signAuditPayload secret ts body) body event),
          ⟨[{ buildRecord scenarioExt (scenarioConfig secret)
                (scenarioRequest body ts (lit "sha256=" ++ signAuditPayload secret ts body))
                ts (lit "sha256=" ++ signAuditPayload secret ts body) body event with
              ID := 1, CreatedAt := now }], 2, false⟩⟩ := by
  have hread : readAllLimited ⟨body, false⟩
      (wrapInt64 ((scenarioConfig secret).MaxBodyBytes + 1)) = some body :=
    readAllLimited_fits (scenarioConfig secret) body hlen
      (show (2097152 : Int) < maxInt64 by decide)
  rw [handle_after_read scenarioExt (scenarioConfig secret) now emptyDb _ ⟨body, false⟩ body
    rfl hread hlen]
  have h1 : trimSpace (scenarioConfig secret).WebhookSecret = secret := hsec
  have h2 : trimSpace (scenarioRequest body ts
      (lit "sha256=" ++ signAuditPayload secret ts body)).auditTimestamp = ts := htrim
  have h3 : trimSpace (scenarioRequest body ts
      (lit "sha256=" ++ signAuditPayload secret ts body)).auditSignature
      = lit "sha256=" ++ signAuditPayload secret ts body := trimSpace_signed secret ts body
  have htsne : ts ≠ [] := by
    intro h0
    rw [h0] at hparse
    simp [strconvParseInt] at hparse
  have hsigne : lit "sha256=" ++ signAuditPayload secret ts body ≠ [] := by simp [lit]
  have hh : ¬ (ts = [] ∨ lit "sha256=" ++ signAuditPayload secret ts body = []) := by
    push_neg; exact ⟨htsne, hsigne⟩
  have hsk : ¬ ((scenarioConfig secret).MaxSkewSeconds > 0
      ∧ absInt64 (wrapInt64 (now - tsv)) > (scenarioConfig secret).MaxSkewSeconds) := hskew
  rw [h1, h2, h3, if_pos hne]
  simp only [checkSignature, if_neg hh, hparse, if_neg hsk,
    (verify_of_signed secret ts body hne).1, hu]
  rfl

/-- The values the handler passes to `verifyNewAPISignature` for a scenario request that
carries the sender's own signature are accepted. -/
theorem scenario_signed_verifies (secret ts body : Bytes) (hsec : trimSpace secret = secret)
    (hne : secret ≠ []) (htrim : trimSpace ts = ts) :
    verifyNewAPISignature (trimSpace (scenarioConfig secret).WebhookSecret)
      (trimSpace (scenarioRequest body ts
        (lit "sha256=" ++ signAuditPayload secret ts body)).auditTimestamp) body
      (trimSpace (scenarioRequest body ts
        (lit "sha256=" ++ signAuditPayload secret ts body)).auditSignature) = true := by
  have h1 : trimSpace (scenarioConfig secret).WebhookSecret = secret := hsec
  have h2 : trimSpace (scenarioRequest body ts
      (lit "sha256=" ++ signAuditPayload secret ts body)).auditTimestamp = ts := htrim
  have h3 : trimSpace (scenarioRequest body ts
      (lit "sha256=" ++ signAuditPayload secret ts body)).auditSignature
      = lit "sha256=" ++ signAuditPayload secret ts body := trimSpace_signed secret ts body
  rw [h1, h2, h3]
  exact (verify_of_signed secret ts body hne).1

/-- The skew test away from the overflow: with a secret configured, both headers present
and a timestamp that parses, a distance from `now` that fits an `int64` and exceeds a
positive `MaxSkewSeconds` is answered 401 `timestamp skew too large`, whatever the
signature header holds. -/
theorem skew_rejected_in_range (ext : Ext) (cfg : Config) (now : Int) (db : Db)
    (req : Request) (stream : BodyStream) (body : Bytes) (ts : Int)
    (hsecret : trimSpace cfg.WebhookSecret ≠ []) (hbody : req.Body = some stream)
    (hread : readAllLimited stream (wrapInt64 (cfg.MaxBodyBytes + 1)) = some body)
    (hsize : (body.length : Int) ≤ cfg.MaxBodyBytes)
    (h1 : trimSpace req.auditTimestamp ≠ []) (h2 : trimSpace req.auditSignature ≠ [])
    (hts : strconvParseInt (trimSpace req.auditTimestamp) = (ts, none))
    (hpos : 0 < cfg.MaxSkewSeconds)
    (hrange : -maxInt64 ≤ now - ts ∧ now - ts ≤ maxInt64)
    (hfar : cfg.MaxSkewSeconds < |now - ts|) :
    handleNewAPIWebhook ext cfg now db (some req)
      = ⟨401, "timestamp skew too large\n", none, db⟩ := by
  rw [handle_after_read ext cfg now db req stream body hbody hread hsize, if_pos hsecret]
  have hh : ¬ (trimSpace req.auditTimestamp = [] ∨ trimSpace req.auditSignature = []) := by
    push_neg; exact ⟨h1, h2⟩
  have hw : wrapInt64 (now - ts) = now - ts := by
    apply wrapInt64_of_range
    · unfold minInt64; unfold maxInt64 at hrange; omega
    · exact hrange.2
  have habs : absInt64 (now - ts) = |now - ts| := by
    unfold absInt64
    split
    · rename_i hneg
      rw [abs_of_neg hneg]
      apply wrapInt64_of_range
      · unfold minInt64; unfold maxInt64 at hrange; omega
      · unfold maxInt64 at *; omega
    · rename_i hnn
      rw [abs_of_nonneg (by omega)]
  have hsk : cfg.MaxSkewSeconds > 0
      ∧ absInt64 (wrapInt64 (now - ts)) > cfg.MaxSkewSeconds := by
    rw [hw, habs]
    exact ⟨hpos, hfar⟩
  simp only [checkSignature, if_neg hh, hts, if_pos hsk]

/-! ## Facts about the body tap -/

/-- One `Read` keeps the tap in step with the bytes delivered so far: the buffer holds
their first `limit` bytes and `truncated` tells whether there were more. -/
theorem tap_read_step (L : Nat) (hL : 0 < L) (t : auditTapReadCloser) (s : Bytes)
    (u : ReadResult) (hbuf : t.buf = some (s.take L)) (hlim : t.limit = (L : Int))
    (htr : t.truncated = decide (L < s.length)) :
    (t.Read u).1.buf = some ((s ++ u.data).take L) ∧ (t.Read u).1.limit = (L : Int)
      ∧ (t.Read u).1.truncated = decide (L < (s ++ u.data).length) := by
  obtain ⟨buf, limit, truncated⟩ := t
  simp only at hbuf hlim htr
  subst hbuf hlim
  simp only [auditTapReadCloser.Read]
  by_cases hc : ((u.data.length : Int) ≤ 0 ∨ (L : Int) ≤ 0 ∨ truncated = true)
  · rw [if_pos hc]
    rcases hc with h | h | h
    · have hd : u.data = [] := by
        have : u.data.length = 0 := by omega
        exact List.length_eq_zero.mp this
      simp [hd, htr]
    · omega
    · rw [htr] at h
      simp only [decide_eq_true_eq] at h
      refine ⟨?_, rfl, ?_⟩
      · simp only
        rw [List.take_append_of_le_length (by omega)]
      · simp only [htr, List.length_append]
        simp only [decide_eq_decide]
        constructor <;> intro _ <;> omega
  · rw [if_neg hc]
    push_neg at hc
    obtain ⟨hn, _, htf⟩ := hc
    have hsl : s.length ≤ L := by
      rw [htr] at htf
      simpa using htf
    have htake : s.take L = s := List.take_of_length_le hsl
    simp only [htake]
    by_cases hrem : (L : Int) - (s.length : Int) ≤ 0
    · rw [if_pos hrem]
      have hsL : s.length = L := by omega
      refine ⟨?_, rfl, ?_⟩
      · simp only
        rw [List.take_append_of_le_length (by omega), htake]
      · simp only [List.length_append]
        simp only [true_eq_decide_iff]
        omega
    · rw [if_neg hrem]
      by_cases hover : (u.data.length : Int) > (L : Int) - (s.length : Int)
      · simp only [if_pos hover]
        have hk : ((L : Int) - (s.length : Int)).toNat = L - s.length := by omega
        refine ⟨?_, trivial, ?_⟩
        · rw [hk, List.take_append_eq_append_take, htake]
        · simp only [List.length_append, true_eq_decide_iff]
          omega
      · simp only [if_neg hover]
        have hk : ((u.data.length : Int)).toNat = u.data.length := by omega
        refine ⟨?_, trivial, ?_⟩
        · rw [hk, List.take_length]
          rw [List.take_of_length_le]
          simp only [List.length_append]
          omega
        · simp only [List.length_append, htr]
          simp only [decide_eq_decide]
          constructor <;> intro _ <;> omega

theorem readThrough_inv (L : Nat) (hL : 0 < L) (reads : List ReadResult) :
    ∀ (t : auditTapReadCloser) (s : Bytes), t.buf = some (s.take L) → t.limit = (L : Int) →
      t.truncated = decide (L < s.length) →
      (readThrough t reads).buf = some ((s ++ streamOf reads).take L)
      ∧ (readThrough t reads).limit = (L : Int)
      ∧ (readThrough t reads).truncated = decide (L < (s ++ streamOf reads).length) := by
  induction reads with
  | nil =>
    intro t s h1 h2 h3
    simpa [readThrough, streamOf] using ⟨h1, h2, h3⟩
  | cons u rest ih =>
    intro t s h1 h2 h3
    obtain ⟨k1, k2, k3⟩ := tap_read_step L hL t s u h1 h2 h3
    have := ih (t.Read u).1 (s ++ u.data) k1 k2 k3
    simpa [readThrough, streamOf, List.append_assoc] using this

/-! ## Facts about trimming and number formatting -/

theorem leadLen_pos_isPrefix (seqs : List Bytes) (s : Bytes) (k : Nat)
    (h : leadLen seqs s = k + 1) : k + 1 ≤ s.length := by
  unfold leadLen at h
  split at h
  · rename_i q hq
    have hp := List.find?_some hq
    simp only [List.isPrefixOf_iff_prefix] at hp
    have := hp.length_le
    omega
  · omega

/-- With fuel for every byte, stripping stops at a string without a leading sequence. -/
theorem leadLen_stripLead (seqs : List Bytes) :
    ∀ (fuel : Nat) (s : Bytes), s.length ≤ fuel → leadLen seqs (stripLead seqs fuel s) = 0 := by
  intro fuel
  induction fuel with
  | zero =>
    intro s hs
    have : s = [] := List.length_eq_zero.mp (by omega)
    subst this
    cases h : leadLen seqs [] with
    | zero => simp [stripLead, h]
    | succ k => have := leadLen_pos_isPrefix seqs [] k h; simp at this
  | succ n ih =>
    intro s hs
    cases h : leadLen seqs s with
    | zero => simp [stripLead, h]
    | succ k =>
      have hk := leadLen_pos_isPrefix seqs s k h
      simp only [stripLead, h]
      apply ih
      rw [List.length_drop]
      omega

/-- Stripping leaves a suffix of the string. -/
theorem stripLead_suffix (seqs : List Bytes) :
    ∀ (fuel : Nat) (s : Bytes), ∃ pre, s = pre ++ stripLead seqs fuel s := by
  intro fuel
  induction fuel with
  | zero => intro s; exact ⟨[], rfl⟩
  | succ n ih =>
    intro s
    cases h : leadLen seqs s with
    | zero => exact ⟨[], by simp [stripLead, h]⟩
    | succ k =>
      simp only [stripLead, h]
      obtain ⟨pre, hpre⟩ := ih (s.drop (k + 1))
      refine ⟨s.take (k + 1) ++ pre, ?_⟩
      rw [List.append_assoc, ← hpre, List.take_append_drop]

/-- A string without a leading sequence keeps none when its end is cut off. -/
theorem leadLen_zero_of_append (seqs : List Bytes) (s t : Bytes)
    (h : leadLen seqs (s ++ t) = 0) (hne : ∀ q ∈ seqs, q ≠ []) : leadLen seqs s = 0 := by
  unfold leadLen at h ⊢
  cases hf : seqs.find? (fun q => q.isPrefixOf s) with
  | none => rfl
  | some q =>
    exfalso
    have hq := List.find?_some hf
    have hmem := List.mem_of_find?_eq_some hf
    simp only [List.isPrefixOf_iff_prefix] at hq
    have hq2 : q <+: s ++ t := hq.trans (List.prefix_append s t)
    cases hf2 : seqs.find? (fun q => q.isPrefixOf (s ++ t)) with
    | none =>
      rw [List.find?_eq_none] at hf2
      have := hf2 q hmem
      simp [List.isPrefixOf_iff_prefix] at this
      exact this hq2
    | some q2 =>
      rw [hf2] at h
      simp only at h
      have hmem2 := List.mem_of_find?_eq_some hf2
      have := hne q2 hmem2
      exact this (List.length_eq_zero.mp h)

theorem spaceRunes_ne_nil : ∀ q ∈ spaceRunes, q ≠ [] := by decide

theorem spaceRunes_rev_ne_nil : ∀ q ∈ spaceRunes.map List.reverse, q ≠ [] := by decide

/-- `strings.TrimSpace` is idempotent. -/
theorem trimSpace_trimSpace (s : Bytes) : trimSpace (trimSpace s) = trimSpace s := by
  have hl : leadLen spaceRunes (trimLeftSpace s) = 0 :=
    leadLen_stripLead spaceRunes s.length s (le_refl _)
  have hr : leadLen (spaceRunes.map List.reverse) (trimSpace s).reverse = 0 := by
    unfold trimSpace trimRightSpace
    rw [List.reverse_reverse]
    exact leadLen_stripLead _ _ _ (by simp)
  have hl2 : leadLen spaceRunes (trimSpace s) = 0 := by
    obtain ⟨pre, hpre⟩ := stripLead_suffix (spaceRunes.map List.reverse)
      (trimLeftSpace s).length (trimLeftSpace s).reverse
    have hsplit : trimLeftSpace s = trimSpace s ++ pre.reverse := by
      have := congrArg List.reverse hpre
      rw [List.reverse_reverse, List.reverse_append] at this
      exact this
    rw [hsplit] at hl
    exact leadLen_zero_of_append _ _ _ hl spaceRunes_ne_nil
  have h1 : trimLeftSpace (trimSpace s) = trimSpace s :=
    stripLead_of_leadLen_zero _ _ _ hl2
  have h2 : trimRightSpace (trimSpace s) = trimSpace s := by
    unfold trimRightSpace
    rw [stripLead_of_leadLen_zero _ _ _ hr, List.reverse_reverse]
  show trimRightSpace (trimLeftSpace (trimSpace s)) = trimSpace s
  rw [h1, h2]

/-- The digit loop of `ParseUint` on decimal digits: no error while the value stays below
2^64. -/
theorem parseUintLoop_digits (ds : List Nat) (hd : ∀ d ∈ ds, d < 10) :
    ∀ acc : Nat, ds.foldl (fun a d => a * 10 + d) acc < 18446744073709551616 →
      parseUintLoop (ds.map (fun d => d + 48)) acc
        = (ds.foldl (fun a d => a * 10 + d) acc, none) := by
  induction ds with
  | nil => intro acc _; rfl
  | cons d rest ih =>
    intro acc hacc
    have hd0 : d < 10 := hd d (List.mem_cons_self d rest)
    have hmono : ∀ (l : List Nat) (a : Nat), a ≤ l.foldl (fun a d => a * 10 + d) a := by
      intro l
      induction l with
      | nil => intro a; exact le_refl _
      | cons x xs ihx =>
        intro a
        simp only [List.foldl_cons]
        exact le_trans (by omega) (ihx (a * 10 + x))
    simp only [List.foldl_cons] at hacc
    have hstep := hmono rest (acc * 10 + d)
    simp only [List.map_cons, parseUintLoop]
    rw [if_pos (by omega), if_neg (by omega), if_neg (by omega)]
    have : d + 48 - 48 = d := by omega
    rw [this]
    exact ih (fun x hx => hd x (List.mem_cons_of_mem d hx)) (acc * 10 + d) hacc

theorem foldl_digits (n : Nat) :
    (Nat.digits 10 n).reverse.foldl (fun a d => a * 10 + d) 0 = n := by
  rw [List.foldl_reverse]
  have h := Nat.ofDigits_digits 10 n
  rw [Nat.ofDigits_eq_foldr] at h
  have : List.foldr (fun x y => y * 10 + x) 0 (Nat.digits 10 n)
      = List.foldr (fun (x : ℕ) (y : ℕ) => ((x : ℕ) : ℕ) + 10 * y) 0 (Nat.digits 10 n) := by
    congr 1
    funext x y
    omega
  rw [this]
  simpa using h

theorem formatUint_ne_nil (n : Nat) : formatUint n ≠ [] := by
  unfold formatUint
  split
  · simp
  · rename_i h
    simp only [ne_eq, List.map_eq_nil_iff, List.reverse_eq_nil_iff]
    exact fun h0 => h (Nat.digits_eq_nil_iff_eq_zero.mp h0)

theorem formatUint_plain (n : Nat) : ∀ x ∈ formatUint n, 33 ≤ x ∧ x < 128 := by
  intro x hx
  unfold formatUint at hx
  split at hx
  · simp at hx; omega
  · simp only [List.mem_map, List.mem_reverse] at hx
    obtain ⟨d, hd, rfl⟩ := hx
    have := Nat.digits_lt_base (by decide : 1 < 10) hd
    omega

/-- Parsing what `FormatUint` wrote gives the number back, for every `uint64`. -/
theorem parseUint64_formatUint (n : Nat) (h : n < 18446744073709551616) :
    parseUint64 (formatUint n) = n := by
  unfold parseUint64
  simp only [trimSpace_plain _ (formatUint_ne_nil n) (formatUint_plain n),
    if_neg (formatUint_ne_nil n)]
  unfold strconvParseUint
  rw [if_neg (formatUint_ne_nil n)]
  by_cases h0 : n = 0
  · subst h0; decide
  · have hfmt : formatUint n = ((Nat.digits 10 n).reverse).map (fun d => d + 48) := by
      unfold formatUint; rw [if_neg h0]
    rw [hfmt, parseUintLoop_digits _ (fun d hd => Nat.digits_lt_base (by decide)
      (List.mem_reverse.mp hd)) 0 (by rw [foldl_digits]; exact h), foldl_digits]

/-! ## Facts about the list queries -/

theorem sortDesc_perm (l : List AuditRecord) : (sortDesc l).Perm l :=
  List.perm_insertionSort _ l

theorem mem_sortDesc (l : List AuditRecord) (r : AuditRecord) : r ∈ sortDesc l ↔ r ∈ l :=
  (sortDesc_perm l).mem_iff

theorem sortDesc_length (l : List AuditRecord) : (sortDesc l).length = l.length :=
  (sortDesc_perm l).length_eq

/-- Rows with distinct identifiers come out in strictly descending identifier order. -/
theorem sortDesc_strict (l : List AuditRecord) (hkey : (l.map AuditRecord.ID).Nodup) :
    (sortDesc l).Pairwise (fun a b => b.ID < a.ID) := by
  have hs : (sortDesc l).Pairwise (fun a b => b.ID ≤ a.ID) :=
    List.sorted_insertionSort _ l
  have hn : ((sortDesc l).map AuditRecord.ID).Nodup :=
    ((sortDesc_perm l).map AuditRecord.ID).nodup_iff.mpr hkey
  have hn2 : (sortDesc l).Pairwise (fun a b => a.ID ≠ b.ID) := by
    rw [List.Nodup, List.pairwise_map] at hn
    exact hn
  exact (hs.and hn2).imp (fun ⟨h1, h2⟩ => lt_of_le_of_ne h1 (fun h => h2 h.symm))

/-- Two strictly descending lists with the same rows are equal. -/
theorem desc_unique (l₁ l₂ : List AuditRecord) (hp : l₁.Perm l₂)
    (h1 : l₁.Pairwise (fun a b => b.ID < a.ID)) (h2 : l₂.Pairwise (fun a b => b.ID < a.ID)) :
    l₁ = l₂ :=
  List.eq_of_perm_of_sorted hp h1 h2

theorem nodup_filter_ids (l : List AuditRecord) (p : AuditRecord → Bool)
    (hkey : (l.map AuditRecord.ID).Nodup) : ((l.filter p).map AuditRecord.ID).Nodup :=
  (List.filter_sublist l).map AuditRecord.ID |>.nodup hkey

/-- Selecting rows and ordering them commute when identifiers are distinct. -/
theorem sortDesc_filter (l : List AuditRecord) (p : AuditRecord → Bool)
    (hkey : (l.map AuditRecord.ID).Nodup) :
    sortDesc (l.filter p) = (sortDesc l).filter p := by
  apply desc_unique
  · exact (sortDesc_perm _).trans ((sortDesc_perm l).filter p).symm
  · exact sortDesc_strict _ (nodup_filter_ids l p hkey)
  · exact (sortDesc_strict l hkey).filter p

theorem clampLimit_range (n : Int) : 1 ≤ clampLimit n ∧ clampLimit n ≤ 200 := by
  simp only [clampLimit]
  split_ifs <;> omega

theorem clampLimit_eq (n : Int) : clampLimit n = max 1 (min 200 n) := by
  simp only [clampLimit]
  split_ifs <;> omega

theorem parseInt_blank (v : Bytes) (d : Int) (h : trimSpace v = []) : parseInt v d = d := by
  simp [parseInt, h]

theorem parseInt_ok (v : Bytes) (d n : Int) (h : strconvAtoi (trimSpace v) = (n, none))
    (hne : trimSpace v ≠ []) : parseInt v d = n := by
  simp [parseInt, h, hne]

theorem parseInt_default (v : Bytes) (d : Int)
    (h : ∀ n, strconvAtoi (trimSpace v) ≠ (n, none)) : parseInt v d = d := by
  unfold parseInt
  simp only
  split
  · rfl
  · split
    · rfl
    · rename_i i hi
      exact absurd hi (h i)

/-- `parseInt` does not see the white space around a value. -/
theorem parseInt_trimSpace (v : Bytes) (d : Int) : parseInt (trimSpace v) d = parseInt v d := by
  unfold parseInt
  rw [trimSpace_trimSpace]

/-- With default 0, `parseInt` is positive exactly for a value that `Atoi` reads as a
positive integer. -/
theorem parseInt_pos_iff (v : Bytes) :
    0 < parseInt v 0 ↔ ∃ n, 0 < n ∧ strconvAtoi (trimSpace v) = (n, none) := by
  unfold parseInt
  simp only
  constructor
  · intro h
    split at h
    · omega
    · split at h
      · omega
      · rename_i i hi
        exact ⟨i, h, hi⟩
  · rintro ⟨n, hn, hv⟩
    have hne : trimSpace v ≠ [] := by
      intro h0
      rw [h0] at hv
      simp [strconvAtoi, strconvParseInt] at hv
    rw [if_neg hne, hv]
    exact hn

theorem lastID_nil : lastID [] = 0 := rfl

theorem lastID_of_getLast (l : List AuditRecord) (r : AuditRecord)
    (h : l.getLast? = some r) : lastID l = r.ID := by
  simp [lastID, h]

/-- An identifier bound below 2^63 is an argument the store accepts. -/
theorem boundUints_small (b : Nat) (hb : b < 9223372036854775808) :
    (boundUints b).any (fun u => decide (9223372036854775808 ≤ u)) = false := by
  unfold boundUints
  split
  · simp only [List.any_cons, List.any_nil, Bool.or_false, decide_eq_false_iff_not]
    omega
  · rfl

/-- An identifier bound of 2^63 or more is an argument the store refuses. -/
theorem boundUints_large (b : Nat) (hb : 9223372036854775808 ≤ b) :
    (boundUints b).any (fun u => decide (9223372036854775808 ≤ u)) = true := by
  have h0 : b > 0 := by omega
  simp only [boundUints, h0, if_true, List.any_cons, List.any_nil, Bool.or_false,
    decide_eq_true_eq]
  exact hb

/-- The list handler on a store that answers, for a `before_id` below 2^63: the page is the
first `limit` matching rows in descending identifier order. -/
theorem handleEventsListAPI_ok (db : Db) (q : ListQuery) (hok : db.failing = false)
    (hb : parseUint64 q.before_id < 9223372036854775808) :
    handleEventsListAPI db q
      = ⟨200, true, "",
          ((sortDesc (db.rows.filter (fun r => (listConditions q).all (fun c => c r)))).take
            (clampLimit (parseInt q.limit 50)).toNat).map AuditRecord.Summary,
          lastID ((sortDesc (db.rows.filter
            (fun r => (listConditions q).all (fun c => c r)))).take
            (clampLimit (parseInt q.limit 50)).toNat)⟩ := by
  simp [handleEventsListAPI, Db.Find, hok, boundUints_small _ hb]

/-- The list handler answers 500 when `before_id` reads as 2^63 or more: the store refuses
the bound argument. -/
theorem handleEventsListAPI_refused (db : Db) (q : ListQuery)
    (hb : 9223372036854775808 ≤ parseUint64 q.before_id) :
    handleEventsListAPI db q = ⟨500, false, "query failed", [], 0⟩ := by
  simp [handleEventsListAPI, Db.Find, boundUints_large _ hb]

/-- What the conditions of a list query ask of a row. -/
theorem listConditions_all (q : ListQuery) (r : AuditRecord) :
    (listConditions q).all (fun c => c r) = true ↔
      (parseUint64 q.before_id = 0 ∨ r.ID < parseUint64 q.before_id)
      ∧ (trimSpace q.request_id ≠ [] → r.RequestID = trimSpace q.request_id)
      ∧ (trimSpace q.path ≠ [] → r.Path = trimSpace q.path)
      ∧ (0 < parseInt q.user_id 0 → r.UserID = parseInt q.user_id 0)
      ∧ (0 < parseInt q.status_code 0 → r.StatusCode = parseInt q.status_code 0) := by
  have hu : ∀ v : Bytes, (trimSpace v ≠ [] ∧ parseInt v 0 > 0) ↔ 0 < parseInt v 0 := by
    intro v
    constructor
    · exact fun h => h.2
    · intro h
      refine ⟨?_, h⟩
      intro h0
      rw [parseInt_blank v 0 h0] at h
      omega
  have hw : ∀ (b : Bool) (c : AuditRecord → Bool),
      (whereIf b c).all (fun f => f r) = (!b || c r) := by
    intro b c
    cases b <;> simp [whereIf]
  have hb : ¬ parseUint64 q.before_id > 0 ↔ parseUint64 q.before_id = 0 := by omega
  simp only [listConditions, List.all_append, hw, Bool.and_eq_true, Bool.or_eq_true,
    Bool.not_eq_true', decide_eq_true_eq, decide_eq_false_iff_not, parseInt_trimSpace,
    hu q.user_id, hu q.status_code, hb, imp_iff_not_or, and_assoc]

/-- The first `k` rows, in descending identifier order, of the rows that satisfy `p`: they
are stored rows that satisfy `p`, strictly descending, as many as asked for or all there
are, and a satisfying row that is left out lies below a full page. -/
theorem page_facts (rows : List AuditRecord) (p : AuditRecord → Bool) (k : Nat)
    (hkey : (rows.map AuditRecord.ID).Nodup) :
    (∀ r ∈ (sortDesc (rows.filter p)).take k, r ∈ rows ∧ p r = true)
    ∧ ((sortDesc (rows.filter p)).take k).Pairwise (fun a b => b.ID < a.ID)
    ∧ ((sortDesc (rows.filter p)).take k).length = min k (rows.filter p).length
    ∧ (∀ r ∈ rows, p r = true → r ∉ (sortDesc (rows.filter p)).take k →
        ((sortDesc (rows.filter p)).take k).length = k
        ∧ ∀ x ∈ (sortDesc (rows.filter p)).take k, r.ID < x.ID) := by
  have hstrict := sortDesc_strict (rows.filter p) (nodup_filter_ids rows p hkey)
  refine ⟨?_, ?_, ?_, ?_⟩
  · intro r hr
    have h1 : r ∈ sortDesc (rows.filter p) := List.mem_of_mem_take hr
    rw [mem_sortDesc, List.mem_filter] at h1
    exact h1
  · exact hstrict.sublist (List.take_sublist _ _)
  · rw [List.length_take, sortDesc_length]
  · intro r hr hp hnot
    have hmem : r ∈ sortDesc (rows.filter p) := by
      rw [mem_sortDesc, List.mem_filter]; exact ⟨hr, hp⟩
    rw [← List.take_append_drop k (sortDesc (rows.filter p))] at hmem hstrict
    have hdrop : r ∈ (sortDesc (rows.filter p)).drop k := by
      rcases List.mem_append.mp hmem with h | h
      · exact absurd h hnot
      · exact h
    constructor
    · rw [List.length_take]
      have : k < (sortDesc (rows.filter p)).length := by
        by_contra hc
        rw [List.drop_of_length_le (by omega)] at hdrop
        simp at hdrop
      omega
    · intro x hx
      exact (List.pairwise_append.mp hstrict).2.2 x hx r hdrop

theorem parseInt_filter_iff (v : Bytes) (x : Int) :
    (0 < parseInt v 0 → x = parseInt v 0)
      ↔ ∀ n, 0 < n → strconvAtoi (trimSpace v) = (n, none) → x = n := by
  constructor
  · intro h n hn hv
    have hne : trimSpace v ≠ [] := by
      intro h0
      rw [h0] at hv
      simp [strconvAtoi, strconvParseInt] at hv
    have hp := parseInt_ok v 0 n hv hne
    rw [hp] at h
    exact h hn
  · intro h hpos
    obtain ⟨n, hn, hv⟩ := (parseInt_pos_iff v).mp hpos
    have hne : trimSpace v ≠ [] := by
      intro h0
      rw [h0] at hv
      simp [strconvAtoi, strconvParseInt] at hv
    rw [parseInt_ok v 0 n hv hne]
    exact h n hn hv

/-- The conditions the handler builds select exactly the rows the specification asks
for. -/
theorem listConditions_iff_specMatches (q : ListQuery) (r : AuditRecord) :
    (listConditions q).all (fun c => c r) = true ↔ specMatches q r := by
  rw [listConditions_all]
  unfold specMatches
  rw [parseInt_filter_iff, parseInt_filter_iff]

/-- Without equality filters a query asks for the rows below `before_id` only. -/
theorem specMatches_no_filter (q : ListQuery) (r : AuditRecord)
    (h1 : trimSpace q.request_id = []) (h2 : trimSpace q.path = [])
    (h3 : trimSpace q.user_id = []) (h4 : trimSpace q.status_code = []) :
    specMatches q r ↔ (parseUint64 q.before_id = 0 ∨ r.ID < parseUint64 q.before_id) := by
  unfold specMatches
  rw [h1, h2, h3, h4]
  constructor
  · exact fun h => h.1
  · intro h
    refine ⟨h, fun hc => absurd rfl hc, fun hc => absurd rfl hc, ?_, ?_⟩ <;>
    · intro n _ hv
      simp [strconvAtoi, strconvParseInt] at hv

/-- The page handler on a store that answers, for a query without a request id and a
`before_id` below 2^63. -/
theorem handleEventsListPage_ok (render : ListPageData → Bool) (db : Db) (q : ListQuery)
    (hok : db.failing = false) (hb : parseUint64 q.before_id < 9223372036854775808)
    (h1 : trimSpace q.request_id = []) :
    ∃ data, (handleEventsListPage render db q).page = some data
      ∧ data.Limit = clampLimit (parseInt q.limit 100)
      ∧ data.BeforeID = parseUint64 q.before_id
      ∧ data.Events = (sortDesc (db.rows.filter (fun r =>
          decide (parseUint64 q.before_id = 0 ∨ r.ID < parseUint64 q.before_id)))).take
            data.Limit.toNat
      ∧ data.NextBeforeID = lastID data.Events := by
  have hf : db.rows.filter (fun r =>
        (whereIf (decide (parseUint64 q.before_id > 0))
            (fun r => decide (r.ID < parseUint64 q.before_id))
          ++ whereIf (decide (trimSpace q.request_id ≠ []))
            (fun r => decide (r.RequestID = trimSpace q.request_id))).all (fun c => c r))
      = db.rows.filter (fun r =>
        decide (parseUint64 q.before_id = 0 ∨ r.ID < parseUint64 q.before_id)) := by
    apply List.filter_congr
    intro r _
    rw [h1]
    by_cases hb : parseUint64 q.before_id > 0
    · have : parseUint64 q.before_id ≠ 0 := by omega
      simp [whereIf, hb, this]
    · have : parseUint64 q.before_id = 0 := by omega
      simp [whereIf, this]
  simp only [handleEventsListPage, Db.Find, hok, hf, boundUints_small _ hb, Bool.or_false,
    Bool.false_eq_true, if_false]
  split <;> exact ⟨_, rfl, rfl, rfl, rfl, rfl⟩

/-- The page handler answers 500 when `before_id` reads as 2^63 or more. -/
theorem handleEventsListPage_refused (render : ListPageData → Bool) (db : Db) (q : ListQuery)
    (hb : 9223372036854775808 ≤ parseUint64 q.before_id) :
    handleEventsListPage render db q = ⟨500, "query failed\n", none⟩ := by
  simp [handleEventsListPage, Db.Find, boundUints_large _ hb]

/-- With `before_id=18446744073709551615`, and with an out-of-range value, which
`parseUint64` reads as the same number, both list handlers answer 500 on a store that
holds the identifiers 3, 1, 2. -/
theorem high_before_id_query_fails :
    handleEventsListAPI (storeOfIDs [3, 1, 2] 4) (pageQuery [] (lit "18446744073709551615"))
      = ⟨500, false, "query failed", [], 0⟩
    ∧ parseUint64 (lit "99999999999999999999") = 18446744073709551615
    ∧ handleEventsListAPI (storeOfIDs [3, 1, 2] 4) (pageQuery [] (lit "99999999999999999999"))
      = ⟨500, false, "query failed", [], 0⟩
    ∧ handleEventsListAPI (storeOfIDs [3, 1, 2] 4) (pageQuery [] (lit "9223372036854775808"))
      = ⟨500, false, "query failed", [], 0⟩
    ∧ handleEventsListPage (fun _ => true) (storeOfIDs [3, 1, 2] 4)
        (pageQuery [] (lit "9223372036854775808")) = ⟨500, "query failed\n", none⟩
    ∧ (handleEventsListAPI (storeOfIDs [3, 1, 2] 4)
        (pageQuery [] (lit "9223372036854775807"))).data.map AuditRecordSummary.ID
      = [3, 2, 1] := by
  decide

/-! ## Facts about paging -/

/-- Inserting into a store that answers keeps it answering, appends rows, and gives the
new rows identifiers not below the old counter. -/
theorem insertAll_facts (now : Int) (arrivals : List AuditRecord) :
    ∀ d : Db, d.failing = false →
      (d.insertAll arrivals now).failing = false
      ∧ d.nextID ≤ (d.insertAll arrivals now).nextID
      ∧ ∃ extra, (d.insertAll arrivals now).rows = d.rows ++ extra
          ∧ ∀ e ∈ extra, d.nextID ≤ e.ID := by
  induction arrivals with
  | nil =>
    intro d hd
    exact ⟨hd, le_refl _, [], by simp [Db.insertAll], by simp⟩
  | cons a rest ih =>
    intro d hd
    have hstep : d.insertAll (a :: rest) now
        = Db.insertAll ⟨d.rows ++ [{ a with ID := d.nextID, CreatedAt := now }],
            d.nextID + 1, d.failing⟩ rest now := by
      simp [Db.insertAll, Db.Create, hd]
    obtain ⟨i1, i2, extra, i3, i4⟩ := ih ⟨d.rows ++ [{ a with ID := d.nextID, CreatedAt := now }],
      d.nextID + 1, d.failing⟩ hd
    rw [hstep]
    refine ⟨i1, by simp only at i2; omega,
      { a with ID := d.nextID, CreatedAt := now } :: extra, by rw [i3]; simp, ?_⟩
    intro e he
    rcases List.mem_cons.mp he with h | h
    · rw [h]
    · have := i4 e h
      simp only at this
      omega

/-- In a strictly descending list, the rows below the last row of the first `k` are the
rows after the first `k`. -/
theorem desc_filter_below_last (R : List AuditRecord) (k : Nat)
    (hR : R.Pairwise (fun a b => b.ID < a.ID)) (hk : 0 < k) (hne : R ≠ []) :
    R.filter (fun r => decide (r.ID < lastID (R.take k))) = R.drop k := by
  have htake : R.take k ≠ [] := by
    cases R with
    | nil => exact absurd rfl hne
    | cons a t =>
      cases k with
      | zero => omega
      | succ n => simp
  have hsplit := List.take_append_drop k R
  have hlast : lastID (R.take k) = ((R.take k).getLast htake).ID := by
    simp [lastID, List.getLast?_eq_getLast _ htake]
  have hp := hR
  rw [← hsplit] at hp
  obtain ⟨p1, _, p3⟩ := List.pairwise_append.mp hp
  have hinit : ∀ a ∈ R.take k, ((R.take k).getLast htake).ID ≤ a.ID := by
    intro a ha
    have hd := List.dropLast_append_getLast htake
    rw [← hd] at ha p1
    rcases List.mem_append.mp ha with h | h
    · exact Nat.le_of_lt ((List.pairwise_append.mp p1).2.2 a h _ (List.mem_singleton_self _))
    · rw [List.mem_singleton.mp h]
  have h1 : (R.take k).filter (fun r => decide (r.ID < lastID (R.take k))) = [] := by
    rw [List.filter_eq_nil_iff]
    intro a ha
    have := hinit a ha
    simp only [decide_eq_true_eq, hlast]
    omega
  have h2 : (R.drop k).filter (fun r => decide (r.ID < lastID (R.take k))) = R.drop k := by
    rw [List.filter_eq_self]
    intro c hc
    have := p3 _ (List.getLast_mem htake) c hc
    simp only [decide_eq_true_eq, hlast]
    exact this
  calc R.filter (fun r => decide (r.ID < lastID (R.take k)))
      = (R.take k ++ R.drop k).filter (fun r => decide (r.ID < lastID (R.take k))) := by
        rw [hsplit]
    _ = R.drop k := by rw [List.filter_append, h1, h2, List.nil_append]

theorem lastID_mem (l : List AuditRecord) (hne : l ≠ []) : ∃ x ∈ l, lastID l = x.ID :=
  ⟨l.getLast hne, List.getLast_mem hne, by simp [lastID, List.getLast?_eq_getLast _ hne]⟩

/-- The conditions of a paging query select the rows below `before`. -/
theorem crawl_conditions (limit : Bytes) (before : Nat) (hb : before < 18446744073709551616)
    (r : AuditRecord) :
    (listConditions ⟨limit, formatUint before, [], [], [], []⟩).all (fun c => c r)
      = decide (before = 0 ∨ r.ID < before) := by
  rw [Bool.eq_iff_iff, listConditions_iff_specMatches,
    specMatches_no_filter _ _ trimSpace_nil trimSpace_nil trimSpace_nil trimSpace_nil]
  simp only [parseUint64_formatUint before hb, decide_eq_true_eq]

/-- Paging backward from `before` visits exactly the initial rows below `before`, in
descending identifier order, whatever is inserted on the way. -/
theorem crawl_visits (limit : Bytes) (rows0 : List AuditRecord) (N0 : Nat)
    (hkey : (rows0.map AuditRecord.ID).Nodup) (hpos : ∀ r ∈ rows0, 0 < r.ID)
    (hlt : ∀ r ∈ rows0, r.ID < N0) (hN : N0 ≤ 9223372036854775808) :
    ∀ (fuel : Nat) (d : Db) (arrivals : List (List AuditRecord)) (before : Nat)
      (extra : List AuditRecord),
      d.failing = false → d.rows = rows0 ++ extra → (∀ e ∈ extra, N0 ≤ e.ID) →
      N0 ≤ d.nextID → (before = 0 → extra = []) → (before = 0 ∨ before < N0) →
      ((sortDesc rows0).filter (fun r => decide (before = 0 ∨ r.ID < before))).length < fuel →
      crawl limit fuel d arrivals before
        = some (((sortDesc rows0).filter
            (fun r => decide (before = 0 ∨ r.ID < before))).map AuditRecord.Summary) := by
  intro fuel
  induction fuel with
  | zero => intro d arrivals before extra _ _ _ _ _ _ hf; omega
  | succ n ih =>
    intro d arrivals before extra hok hrows hextra hnext hfirst hbound hfuel
    have hb63 : before < 9223372036854775808 := by omega
    have hb64 : before < 18446744073709551616 := by omega
    have hLpos : 0 < (clampLimit (parseInt limit 50)).toNat := by
      have := (clampLimit_range (parseInt limit 50)).1
      omega
    -- the page of this call
    have hfilter : d.rows.filter (fun r =>
          (listConditions ⟨limit, formatUint before, [], [], [], []⟩).all (fun c => c r))
        = rows0.filter (fun r => decide (before = 0 ∨ r.ID < before)) := by
      rw [List.filter_congr (fun r _ => crawl_conditions limit before hb64 r), hrows,
        List.filter_append]
      have : extra.filter (fun r => decide (before = 0 ∨ r.ID < before)) = [] := by
        rw [List.filter_eq_nil_iff]
        intro e he
        simp only [decide_eq_true_eq]
        by_cases h0 : before = 0
        · rw [hfirst h0] at he
          simp at he
        · have := hextra e he
          omega
      rw [this, List.append_nil]
    have hsorted : sortDesc (d.rows.filter (fun r =>
          (listConditions ⟨limit, formatUint before, [], [], [], []⟩).all (fun c => c r)))
        = (sortDesc rows0).filter (fun r => decide (before = 0 ∨ r.ID < before)) := by
      rw [hfilter, sortDesc_filter rows0 _ hkey]
    have hres := handleEventsListAPI_ok d ⟨limit, formatUint before, [], [], [], []⟩ hok
      (by rw [parseUint64_formatUint before hb64]; exact hb63)
    simp only [hsorted] at hres
    generalize hR : (sortDesc rows0).filter (fun r => decide (before = 0 ∨ r.ID < before)) = R
      at hres hfuel ⊢
    have hRdesc : R.Pairwise (fun a b => b.ID < a.ID) := by
      rw [← hR]
      exact (sortDesc_strict rows0 hkey).filter _
    have hRmem : ∀ x ∈ R, x ∈ rows0 ∧ (before = 0 ∨ x.ID < before) := by
      intro x hx
      rw [← hR, List.mem_filter, mem_sortDesc] at hx
      exact ⟨hx.1, by simpa using hx.2⟩
    unfold crawl
    simp only [hres]
    cases hRe : R with
    | nil => simp
    | cons a t =>
      have hne : R ≠ [] := by rw [hRe]; simp
      have htake : R.take (clampLimit (parseInt limit 50)).toNat ≠ [] := by
        rw [hRe]
        obtain ⟨m, hm⟩ := Nat.exists_eq_succ_of_ne_zero (Nat.pos_iff_ne_zero.mp hLpos)
        rw [hm]
        simp
      obtain ⟨x, hxmem, hxlast⟩ := lastID_mem _ htake
      have hxR : x ∈ R := List.mem_of_mem_take hxmem
      have hx0 := hRmem x hxR
      have hbpos : 0 < lastID (R.take (clampLimit (parseInt limit 50)).toNat) := by
        rw [hxlast]; exact hpos x hx0.1
      have hblt : lastID (R.take (clampLimit (parseInt limit 50)).toNat) < N0 := by
        rw [hxlast]; exact hlt x hx0.1
      obtain ⟨i1, i2, extra2, i3, i4⟩ := insertAll_facts 0 (arrivals.headD []) d hok
      have hnextR : (sortDesc rows0).filter (fun r =>
            decide (lastID (R.take (clampLimit (parseInt limit 50)).toNat) = 0
              ∨ r.ID < lastID (R.take (clampLimit (parseInt limit 50)).toNat)))
          = R.drop (clampLimit (parseInt limit 50)).toNat := by
        rw [← desc_filter_below_last R _ hRdesc hLpos hne, ← hR, List.filter_filter]
        apply List.filter_congr
        intro r _
        rw [Bool.eq_iff_iff]
        simp only [Bool.and_eq_true, decide_eq_true_eq]
        rw [hR]
        constructor
        · intro h
          have h' : r.ID < lastID (R.take (clampLimit (parseInt limit 50)).toNat) := by omega
          refine ⟨h', ?_⟩
          rcases hx0.2 with h0 | h1
          · exact Or.inl h0
          · right; rw [hxlast] at h'; omega
        · intro h
          exact Or.inr h.1
      have hrec := ih (d.insertAll (arrivals.headD []) 0) arrivals.tail
        (lastID (R.take (clampLimit (parseInt limit 50)).toNat)) (extra ++ extra2) i1
        (by rw [i3, hrows, List.append_assoc])
        (by
          intro e he
          rcases List.mem_append.mp he with h | h
          · exact hextra e h
          · exact le_trans hnext (i4 e h))
        (le_trans hnext i2) (by intro h0; omega) (Or.inr hblt)
        (by
          rw [hnextR, List.length_drop]
          have : 0 < R.length := List.length_pos.mpr hne
          omega)
      rw [hnextR] at hrec
      rw [← hRe]
      have hnonempty : (List.map AuditRecord.Summary
          (R.take (clampLimit (parseInt limit 50)).toNat)).isEmpty = false := by
        cases hc : R.take (clampLimit (parseInt limit 50)).toNat with
        | nil => exact absurd hc htake
        | cons y ys => rfl
      simp only [hnonempty, hrec, Bool.false_eq_true, if_false, Option.map_some']
      rw [← List.map_append, List.take_append_drop]

/-! ## Facts about the exporting middleware -/

theorem mirrorLimit_range (settings : AuditSettings) (contentType : Bytes) :
    0 ≤ mirrorLimit settings contentType
    ∧ mirrorLimit settings contentType ≤ auditBodyMaxHardLimitBytes
    ∧ (0 ≤ settings.LogRequestBodyMaxBytes →
        mirrorLimit settings contentType ≤ settings.LogRequestBodyMaxBytes) := by
  simp only [mirrorLimit, auditBodyMaxHardLimitBytes]
  split_ifs <;> omega

theorem mirrorLimit_zero_iff (settings : AuditSettings) (contentType : Bytes) :
    mirrorLimit settings contentType = 0
      ↔ settings.LogRequestBodyMaxBytes ≤ 0
        ∨ stringsContains contentType (lit "multipart/form-data") = true := by
  simp only [mirrorLimit, auditBodyMaxHardLimitBytes]
  split_ifs <;> simp_all <;> omega

/-- A tap without a buffer never changes. -/
theorem readThrough_no_buffer (limit : Int) (reads : List ReadResult) :
    readThrough ⟨none, limit, false⟩ reads = ⟨none, limit, false⟩ := by
  induction reads with
  | nil => rfl
  | cons u rest ih =>
    simp only [readThrough, List.foldl_cons, auditTapReadCloser.Read] at ih ⊢
    exact ih

/-- What the event of `AuditExport` says about the body, in terms of the bytes the host
read: the byte count is the smaller of their number and the mirror limit, and the
truncation flag is set exactly when capture is on and they exceed the mirror limit. -/
theorem auditExport_body (codec : Codec) (settings : AuditSettings) (r : HostRequest)
    (run : HostRun) (e : AuditEvent)
    (h : AuditExport codec settings (some r) run = some e) :
    e.RequestBodyBytes
        = min ((streamOf run.reads).length : Int) (mirrorLimit settings r.contentType)
    ∧ e.RequestBodyTruncated
        = decide (0 < mirrorLimit settings r.contentType
            ∧ mirrorLimit settings r.contentType < ((streamOf run.reads).length : Int)) := by
  unfold AuditExport at h
  split at h
  · simp at h
  · split at h
    · simp at h
    · simp only at h
      split at h
      · simp at h
      · have hm := mirrorLimit_range settings r.contentType
        simp only [Option.some.injEq] at h
        by_cases hpos : mirrorLimit settings r.contentType > 0
        · obtain ⟨L, hL⟩ := Int.eq_ofNat_of_zero_le hm.1
          have hL0 : 0 < L := by omega
          obtain ⟨k1, _, k3⟩ := readThrough_inv L hL0 run.reads
            ⟨some [], (L : Int), false⟩ [] (by simp) rfl (by simp)
          simp only [List.nil_append] at k1 k3
          rw [if_pos hpos, hL] at h
          rw [← h]
          simp only [k1, k3, Option.getD_some, List.length_take, hL]
          constructor
          · omega
          · simp only [decide_eq_decide]
            constructor <;> intro hx <;> omega
        · rw [if_neg hpos, readThrough_no_buffer] at h
          rw [← h]
          have h0 : mirrorLimit settings r.contentType = 0 := by omega
          simp only [h0, Option.getD_none, List.length_nil]
          constructor
          · simp
          · simp

/-! ## Claims -/

/-- C1. Sign/verify round trip: for every non-empty secret, timestamp string and payload,
`verifyNewAPISignature` accepts `"sha256=" + signAuditPayload(secret, ts, payload)` and
also the bare hex signature without the prefix. -/
theorem verify_sign_round_trip (secret ts payload : Bytes) (hsecret : secret ≠ []) :
    verifyNewAPISignature secret ts payload (lit "sha256=" ++ signAuditPayload secret ts payload)
      = true
    ∧ verifyNewAPISignature secret ts payload (signAuditPayload secret ts payload) = true :=
  verify_of_signed secret ts payload hsecret

/-- The scenario of the specification (secret `s3cr3t`, timestamp `1700000000`, the
two-field body) as an instance of the round trip. -/
theorem verify_sign_round_trip_scenario :
    lit "s3cr3t" ≠ []
    ∧ verifyNewAPISignature (lit "s3cr3t") (lit "1700000000")
        scenarioBody
        (lit "sha256=" ++ signAuditPayload (lit "s3cr3t") (lit "1700000000")
          scenarioBody) = true
    ∧ verifyNewAPISignature (lit "s3cr3t") (lit "1700000000")
        scenarioBody
        (signAuditPayload (lit "s3cr3t") (lit "1700000000")
          scenarioBody) = true :=
  ⟨by decide, verify_sign_round_trip _ _ _ (by decide)⟩

/-- C3. No unverified record is persisted: with a secret configured, whenever
`handleNewAPIWebhook` hands a record to the store, the request carried a timestamp header
and a signature header and `verifyNewAPISignature` accepted the secret, the timestamp
header, the raw body (the record's raw payload) and the signature header; the store
changes only through that insert; and a request whose body fails verification inserts
nothing. -/
theorem no_unverified_record (ext : Ext) (cfg : Config) (now : Int) (db : Db)
    (r : Option Request) (hsecret : trimSpace cfg.WebhookSecret ≠ []) :
    (∀ record, (handleNewAPIWebhook ext cfg now db r).created = some record →
      ∃ req, r = some req ∧ req.auditTimestamp ≠ [] ∧ req.auditSignature ≠ []
        ∧ trimSpace req.auditTimestamp ≠ [] ∧ trimSpace req.auditSignature ≠ []
        ∧ verifyNewAPISignature (trimSpace cfg.WebhookSecret) (trimSpace req.auditTimestamp)
            record.RawPayload (trimSpace req.auditSignature) = true)
    ∧ ((handleNewAPIWebhook ext cfg now db r).created = none →
        (handleNewAPIWebhook ext cfg now db r).db = db)
    ∧ (∀ record, (handleNewAPIWebhook ext cfg now db r).created = some record →
        (handleNewAPIWebhook ext cfg now db r).db = db
        ∨ db.Create record now = some (handleNewAPIWebhook ext cfg now db r).db)
    ∧ (∀ req stream body, r = some req → req.Body = some stream →
        readAllLimited stream (wrapInt64 (cfg.MaxBodyBytes + 1)) = some body →
        verifyNewAPISignature (trimSpace cfg.WebhookSecret) (trimSpace req.auditTimestamp)
            body (trimSpace req.auditSignature) = false →
        (handleNewAPIWebhook ext cfg now db r).created = none
        ∧ (handleNewAPIWebhook ext cfg now db r).db = db) := by
  refine ⟨?_, (handle_db ext cfg now db r).1, (handle_db ext cfg now db r).2, ?_⟩
  · intro record h
    cases r with
    | none => simp [handleNewAPIWebhook] at h
    | some req =>
      refine ⟨req, rfl, ?_⟩
      cases hb : req.Body with
      | none => simp [handleNewAPIWebhook, hb] at h
      | some stream =>
        cases hread : readAllLimited stream (wrapInt64 (cfg.MaxBodyBytes + 1)) with
        | none => simp [handleNewAPIWebhook, hb, hread] at h
        | some body =>
          by_cases hsize : (body.length : Int) ≤ cfg.MaxBodyBytes
          · rw [handle_after_read ext cfg now db req stream body hb hread hsize,
              if_pos hsecret] at h
            cases hauth : checkSignature cfg now (trimSpace cfg.WebhookSecret)
                (trimSpace req.auditTimestamp) (trimSpace req.auditSignature) body with
            | some p => rw [hauth] at h; simp at h
            | none =>
              obtain ⟨h1, h2, _, h4⟩ := checkSignature_none _ _ _ _ _ _ hauth
              rw [hauth] at h
              have hraw : record.RawPayload = body := by
                cases hu : ext.unmarshal body with
                | none => rw [hu] at h; simp at h
                | some event =>
                  rw [hu] at h
                  simp only at h
                  split at h <;>
                    (simp only [Option.some.injEq] at h; rw [← h]; rfl)
              refine ⟨?_, ?_, h1, h2, ?_⟩
              · intro h0; rw [h0] at h1; exact h1 trimSpace_nil
              · intro h0; rw [h0] at h2; exact h2 trimSpace_nil
              · rw [hraw]; exact h4
          · have hs : (body.length : Int) > cfg.MaxBodyBytes := by omega
            simp [handleNewAPIWebhook, hb, hread, hs] at h
  · intro req stream body hr hb hread hver
    subst hr
    by_cases hsize : (body.length : Int) ≤ cfg.MaxBodyBytes
    · rw [handle_after_read ext cfg now db req stream body hb hread hsize, if_pos hsecret]
      cases hauth : checkSignature cfg now (trimSpace cfg.WebhookSecret)
          (trimSpace req.auditTimestamp) (trimSpace req.auditSignature) body with
      | some p => exact ⟨rfl, rfl⟩
      | none =>
        have := (checkSignature_none _ _ _ _ _ _ hauth).2.2.2
        rw [hver] at this
        exact absurd this (by decide)
    · have hs : (body.length : Int) > cfg.MaxBodyBytes := by omega
      simp [handleNewAPIWebhook, hb, hread, hs]

/-- Witness for C3: the scenario request with its valid signature is stored, and the
stored request had passed verification. -/
theorem no_unverified_record_scenario :
    trimSpace (scenarioConfig (lit "s3cr3t")).WebhookSecret ≠ []
    ∧ ∀ record, (handleNewAPIWebhook scenarioExt (scenarioConfig (lit "s3cr3t")) 1700000000
          emptyDb (some (scenarioRequest scenarioBody (lit "1700000000")
            (lit "sha256=" ++ signAuditPayload (lit "s3cr3t") (lit "1700000000")
              scenarioBody)))).created = some record →
        ∃ req, some (scenarioRequest scenarioBody (lit "1700000000")
            (lit "sha256=" ++ signAuditPayload (lit "s3cr3t") (lit "1700000000")
              scenarioBody)) = some req
          ∧ req.auditTimestamp ≠ [] ∧ req.auditSignature ≠ []
          ∧ trimSpace req.auditTimestamp ≠ [] ∧ trimSpace req.auditSignature ≠ []
          ∧ verifyNewAPISignature (trimSpace (scenarioConfig (lit "s3cr3t")).WebhookSecret)
              (trimSpace req.auditTimestamp) record.RawPayload
              (trimSpace req.auditSignature) = true :=
  ⟨by decide, (no_unverified_record scenarioExt (scenarioConfig (lit "s3cr3t")) 1700000000
    emptyDb _ (by decide)).1⟩

/-- C4 (the code at the failing input). With the default skew of 300 seconds, receiver time
1700000000 and the sender timestamp -9223372035154775808, the true difference is 2^63
seconds, yet `now-ts` wraps to the smallest `int64`, `absInt64` returns it unchanged
(negative), the skew test passes, and the validly signed request is stored with 204. -/
theorem skew_check_passes_at_wrapped_difference :
    ((1700000000 : Int) - (-9223372035154775808) > 300)
    ∧ strconvParseInt (lit "-9223372035154775808") = (-9223372035154775808, none)
    ∧ absInt64 (wrapInt64 (1700000000 - (-9223372035154775808))) = -9223372036854775808
    ∧ (handleNewAPIWebhook scenarioExt (scenarioConfig (lit "s3cr3t")) 1700000000 emptyDb
        (some (scenarioRequest scenarioBody (lit "-9223372035154775808")
          (lit "sha256=" ++ signAuditPayload (lit "s3cr3t") (lit "-9223372035154775808")
            scenarioBody)))).status = 204
    ∧ (handleNewAPIWebhook scenarioExt (scenarioConfig (lit "s3cr3t")) 1700000000 emptyDb
        (some (scenarioRequest scenarioBody (lit "-9223372035154775808")
          (lit "sha256=" ++ signAuditPayload (lit "s3cr3t") (lit "-9223372035154775808")
            scenarioBody)))).db.rows.length = 1 := by
  rw [scenario_signed_accepted 1700000000 (lit "s3cr3t") (lit "-9223372035154775808")
    scenarioBody scenarioEvent (-9223372035154775808) (by decide) (by decide) (by decide)
    (by decide) (by decide) (by decide) (by decide)]
  exact ⟨by decide, by decide, by decide, rfl, rfl⟩

set_option maxRecDepth 1000000 in
/-- C5 (counterexample). With the secret `s3cr3t` configured, a request without the two
headers and a request with a fresh timestamp and the wrong signature `sha256=00` are both
answered 401, but with different bodies: `missing signature` and `invalid signature`. -/
theorem auth_failure_bodies_differ :
    (handleNewAPIWebhook scenarioExt (scenarioConfig (lit "s3cr3t")) 1700000000 emptyDb
        (some (scenarioRequest scenarioBody [] [])))
      = ⟨401, "missing signature\n", none, emptyDb⟩
    ∧ (handleNewAPIWebhook scenarioExt (scenarioConfig (lit "s3cr3t")) 1700000000 emptyDb
        (some (scenarioRequest scenarioBody (lit "1700000000") (lit "sha256=00"))))
      = ⟨401, "invalid signature\n", none, emptyDb⟩
    ∧ (⟨401, "missing signature\n", none, emptyDb⟩ : WebhookResult)
      ≠ ⟨401, "invalid signature\n", none, emptyDb⟩ := by
  decide

/-- C5 (amended). With a secret configured and a body that was read and is within the size
limit, every authentication rejection is a 401 that stores nothing, and its body names the
failed check: `missing signature` when a header is empty, `invalid timestamp` when the
timestamp does not parse, `timestamp skew too large` when the skew test fails, `invalid
signature` when `verifyNewAPISignature` rejects. -/
theorem auth_rejections_are_unauthorized (ext : Ext) (cfg : Config) (now : Int) (db : Db)
    (req : Request) (stream : BodyStream) (body : Bytes)
    (hsecret : trimSpace cfg.WebhookSecret ≠ []) (hbody : req.Body = some stream)
    (hread : readAllLimited stream (wrapInt64 (cfg.MaxBodyBytes + 1)) = some body)
    (hsize : (body.length : Int) ≤ cfg.MaxBodyBytes) :
    (trimSpace req.auditTimestamp = [] ∨ trimSpace req.auditSignature = [] →
      handleNewAPIWebhook ext cfg now db (some req) = ⟨401, "missing signature\n", none, db⟩)
    ∧ (trimSpace req.auditTimestamp ≠ [] → trimSpace req.auditSignature ≠ [] →
      (strconvParseInt (trimSpace req.auditTimestamp)).2 ≠ none →
      handleNewAPIWebhook ext cfg now db (some req) = ⟨401, "invalid timestamp\n", none, db⟩)
    ∧ (trimSpace req.auditTimestamp ≠ [] → trimSpace req.auditSignature ≠ [] →
      (strconvParseInt (trimSpace req.auditTimestamp)).2 = none →
      (cfg.MaxSkewSeconds > 0 ∧ absInt64 (wrapInt64
        (now - (strconvParseInt (trimSpace req.auditTimestamp)).1)) > cfg.MaxSkewSeconds) →
      handleNewAPIWebhook ext cfg now db (some req)
        = ⟨401, "timestamp skew too large\n", none, db⟩)
    ∧ (trimSpace req.auditTimestamp ≠ [] → trimSpace req.auditSignature ≠ [] →
      (strconvParseInt (trimSpace req.auditTimestamp)).2 = none →
      ¬ (cfg.MaxSkewSeconds > 0 ∧ absInt64 (wrapInt64
        (now - (strconvParseInt (trimSpace req.auditTimestamp)).1)) > cfg.MaxSkewSeconds) →
      verifyNewAPISignature (trimSpace cfg.WebhookSecret) (trimSpace req.auditTimestamp) body
        (trimSpace req.auditSignature) = false →
      handleNewAPIWebhook ext cfg now db (some req) = ⟨401, "invalid signature\n", none, db⟩)
    ∧ ((handleNewAPIWebhook ext cfg now db (some req)).status = 401 →
      (handleNewAPIWebhook ext cfg now db (some req)).created = none
      ∧ (handleNewAPIWebhook ext cfg now db (some req)).db = db
      ∧ ((handleNewAPIWebhook ext cfg now db (some req)).body = "missing signature\n"
        ∨ (handleNewAPIWebhook ext cfg now db (some req)).body = "invalid timestamp\n"
        ∨ (handleNewAPIWebhook ext cfg now db (some req)).body = "timestamp skew too large\n"
        ∨ (handleNewAPIWebhook ext cfg now db (some req)).body = "invalid signature\n")) := by
  rw [handle_after_read ext cfg now db req stream body hbody hread hsize, if_pos hsecret]
  refine ⟨?_, ?_, ?_, ?_, ?_⟩
  · intro h
    simp only [checkSignature, if_pos h]
  · intro h1 h2 h3
    have hh : ¬ (trimSpace req.auditTimestamp = [] ∨ trimSpace req.auditSignature = []) := by
      push_neg; exact ⟨h1, h2⟩
    simp only [checkSignature, if_neg hh]
    cases hp : strconvParseInt (trimSpace req.auditTimestamp) with
    | mk v e =>
      cases e with
      | none => rw [hp] at h3; exact absurd rfl h3
      | some e => rfl
  · intro h1 h2 h3 h4
    have hh : ¬ (trimSpace req.auditTimestamp = [] ∨ trimSpace req.auditSignature = []) := by
      push_neg; exact ⟨h1, h2⟩
    simp only [checkSignature, if_neg hh]
    cases hp : strconvParseInt (trimSpace req.auditTimestamp) with
    | mk v e =>
      cases e with
      | none =>
        rw [hp] at h4
        simp only [if_pos h4]
      | some e => rw [hp] at h3; simp at h3
  · intro h1 h2 h3 h4 h5
    have hh : ¬ (trimSpace req.auditTimestamp = [] ∨ trimSpace req.auditSignature = []) := by
      push_neg; exact ⟨h1, h2⟩
    simp only [checkSignature, if_neg hh]
    cases hp : strconvParseInt (trimSpace req.auditTimestamp) with
    | mk v e =>
      cases e with
      | none =>
        rw [hp] at h4
        simp only [if_neg h4, h5, if_true]
      | some e => rw [hp] at h3; simp at h3
  · cases hauth : checkSignature cfg now (trimSpace cfg.WebhookSecret)
        (trimSpace req.auditTimestamp) (trimSpace req.auditSignature) body with
    | some p =>
      obtain ⟨code, msg⟩ := p
      have := checkSignature_some _ _ _ _ _ _ _ _ hauth
      intro _
      exact ⟨rfl, rfl, this.2⟩
    | none =>
      intro h
      exfalso
      revert h
      cases ext.unmarshal body with
      | none => simp
      | some event =>
        simp only
        split <;> simp

/-- Witness for C5 (amended): the scenario request without its two headers. -/
theorem auth_rejections_are_unauthorized_scenario :
    trimSpace (scenarioConfig (lit "s3cr3t")).WebhookSecret ≠ []
    ∧ (scenarioRequest scenarioBody [] []).Body = some ⟨scenarioBody, false⟩
    ∧ readAllLimited ⟨scenarioBody, false⟩
        (wrapInt64 ((scenarioConfig (lit "s3cr3t")).MaxBodyBytes + 1)) = some scenarioBody
    ∧ (scenarioBody.length : Int) ≤ (scenarioConfig (lit "s3cr3t")).MaxBodyBytes
    ∧ (trimSpace (scenarioRequest scenarioBody [] []).auditTimestamp = []
        ∨ trimSpace (scenarioRequest scenarioBody [] []).auditSignature = [] →
      handleNewAPIWebhook scenarioExt (scenarioConfig (lit "s3cr3t")) 1700000000 emptyDb
          (some (scenarioRequest scenarioBody [] []))
        = ⟨401, "missing signature\n", none, emptyDb⟩) :=
  ⟨by decide, rfl, by decide, by decide,
    (auth_rejections_are_unauthorized scenarioExt (scenarioConfig (lit "s3cr3t")) 1700000000
      emptyDb (scenarioRequest scenarioBody [] []) ⟨scenarioBody, false⟩ scenarioBody
      (by decide) rfl (by decide) (by decide)).1⟩

/-- C6 (the code at the failing input). With no secret and `MaxBodyBytes` set to the
largest `int64`, `MaxBodyBytes+1` wraps to a negative read limit, nothing of the 47-byte
scenario body is read, and the request, whose body is within the limit and parses, is
answered 400 `invalid json` and not stored. -/
theorem open_mode_rejects_at_largest_limit :
    trimSpace ({ scenarioConfig [] with MaxBodyBytes := maxInt64 }).WebhookSecret = []
    ∧ (scenarioBody.length : Int) ≤ ({ scenarioConfig [] with MaxBodyBytes := maxInt64 }).MaxBodyBytes
    ∧ scenarioExt.unmarshal scenarioBody = some scenarioEvent
    ∧ wrapInt64 (maxInt64 + 1) = minInt64
    ∧ readAllLimited ⟨scenarioBody, false⟩ (wrapInt64 (maxInt64 + 1)) = some []
    ∧ handleNewAPIWebhook scenarioExt { scenarioConfig [] with MaxBodyBytes := maxInt64 }
        1700000000 emptyDb (some (scenarioRequest scenarioBody [] []))
      = ⟨400, "invalid json\n", none, emptyDb⟩ := by
  decide

/-- C8. Size cap: a request whose body is longer than `MaxBodyBytes` is answered 413
`payload too large` and nothing is stored, whatever the decoder, the headers and the
secret are (so before any signature check or parsing); and `LoadConfig` never yields a
`MaxBodyBytes` below 1024.  Body lengths and the limit are `int64` values. -/
theorem oversized_body_rejected (ext : Ext) (cfg : Config) (now : Int) (db : Db)
    (req : Request) (stream : BodyStream) (hbody : req.Body = some stream)
    (hcfg : minInt64 ≤ cfg.MaxBodyBytes)
    (hlong : cfg.MaxBodyBytes < (stream.data.length : Int))
    (hint : (stream.data.length : Int) ≤ maxInt64) :
    handleNewAPIWebhook ext cfg now db (some req) = ⟨413, "payload too large\n", none, db⟩
    ∧ ∀ (env : String → Bytes) (toLower : Bytes → Bytes),
        1024 ≤ (LoadConfig env toLower).MaxBodyBytes := by
  constructor
  · have hw : wrapInt64 (cfg.MaxBodyBytes + 1) = cfg.MaxBodyBytes + 1 := by
      apply wrapInt64_of_range
      · unfold minInt64 at *; omega
      · omega
    simp only [handleNewAPIWebhook, hbody, hw, readAllLimited]
    by_cases hneg : cfg.MaxBodyBytes + 1 ≤ 0
    · rw [if_pos hneg]
      have : ((([] : Bytes).length : Int)) > cfg.MaxBodyBytes := by simp; omega
      simp only [if_pos this]
    · rw [if_neg hneg]
      have hnb : ¬ (stream.broken = true ∧ (stream.data.length : Int) < cfg.MaxBodyBytes + 1) := by
        intro h; omega
      rw [if_neg hnb]
      have hlen : (((stream.data.take (cfg.MaxBodyBytes + 1).toNat).length : Nat) : Int)
          > cfg.MaxBodyBytes := by
        rw [List.length_take]
        omega
      simp only [if_pos hlen]
  · intro env toLower
    simp only [LoadConfig]
    split <;> omega

set_option maxRecDepth 1000000 in
/-- Witness for C8: a 1025-byte body against a limit of 1024 bytes. -/
theorem oversized_body_rejected_witness :
    (scenarioRequest (List.replicate 1025 97) [] []).Body
        = some ⟨List.replicate 1025 97, false⟩
    ∧ minInt64 ≤ ({ scenarioConfig [] with MaxBodyBytes := 1024 }).MaxBodyBytes
    ∧ ({ scenarioConfig [] with MaxBodyBytes := 1024 }).MaxBodyBytes
        < (((⟨List.replicate 1025 97, false⟩ : BodyStream).data.length : Nat) : Int)
    ∧ ((((⟨List.replicate 1025 97, false⟩ : BodyStream).data.length : Nat) : Int)) ≤ maxInt64
    ∧ handleNewAPIWebhook scenarioExt { scenarioConfig [] with MaxBodyBytes := 1024 }
          1700000000 emptyDb (some (scenarioRequest (List.replicate 1025 97) [] []))
        = ⟨413, "payload too large\n", none, emptyDb⟩ :=
  ⟨rfl, by decide, by decide, by decide,
    (oversized_body_rejected scenarioExt { scenarioConfig [] with MaxBodyBytes := 1024 }
      1700000000 emptyDb (scenarioRequest (List.replicate 1025 97) [] [])
      ⟨List.replicate 1025 97, false⟩ rfl (by decide) (by decide) (by decide)).1⟩

/-- C7 (counterexample). A validly signed request within the limit whose event has a 65-byte
`type` is stored with 204, and the stored record's type is the first 64 bytes only, not the
type of the event in the payload. -/
theorem stored_type_is_cut_to_64_bytes :
    scenarioExt.unmarshal longTypeBody = some longTypeEvent
    ∧ longTypeEvent.Typ.length = 65
    ∧ (handleNewAPIWebhook scenarioExt (scenarioConfig (lit "s3cr3t")) 1700000000 emptyDb
        (some (scenarioRequest longTypeBody (lit "1700000000")
          (lit "sha256=" ++ signAuditPayload (lit "s3cr3t") (lit "1700000000")
            longTypeBody)))).status = 204
    ∧ (handleNewAPIWebhook scenarioExt (scenarioConfig (lit "s3cr3t")) 1700000000 emptyDb
        (some (scenarioRequest longTypeBody (lit "1700000000")
          (lit "sha256=" ++ signAuditPayload (lit "s3cr3t") (lit "1700000000")
            longTypeBody)))).db.rows.map AuditRecord.EventType = [List.replicate 64 97]
    ∧ (handleNewAPIWebhook scenarioExt (scenarioConfig (lit "s3cr3t")) 1700000000 emptyDb
        (some (scenarioRequest longTypeBody (lit "1700000000")
          (lit "sha256=" ++ signAuditPayload (lit "s3cr3t") (lit "1700000000")
            longTypeBody)))).db.rows.map AuditRecord.EventType ≠ [longTypeEvent.Typ] := by
  rw [scenario_signed_accepted 1700000000 (lit "s3cr3t") (lit "1700000000")
    longTypeBody longTypeEvent 1700000000 (by decide) (by decide) (by decide)
    (by decide) (by decide) (by decide) (by decide)]
  refine ⟨by decide, by decide, rfl, ?_, ?_⟩
  · show [truncateString longTypeEvent.Typ 64] = [List.replicate 64 97]
    decide
  · show [truncateString longTypeEvent.Typ 64] ≠ [longTypeEvent.Typ]
    decide

/-- C7 (amended). For a body limit below the largest `int64`, a sound body within the
limit that parses as an event, a timestamp header that parses and lies within the skew
window (or a window that is switched off), an accepted signature and a store that accepts
the insert: the handler answers 204 and appends one record under the next identifier
whose string fields are the event's fields cut by `truncateString` to the column sizes
(type 64, request id 64, method 16, path 512, username 128, token name 256, group 128,
channel name 256, model 256, content type 256, encoding 16), whose numeric fields, request
body and truncation flag are the event's, and whose raw payload is the body as received. -/
theorem verified_ingestion_stores_record (ext : Ext) (cfg : Config) (now : Int) (db : Db)
    (req : Request) (data : Bytes) (event : NewAPIAuditEvent) (ts : Int)
    (hbody : req.Body = some ⟨data, false⟩)
    (hlen : (data.length : Int) ≤ cfg.MaxBodyBytes) (hmax : cfg.MaxBodyBytes < maxInt64)
    (hts : strconvParseInt (trimSpace req.auditTimestamp) = (ts, none))
    (hcfg : cfg.MaxSkewSeconds ≤ maxInt64)
    (hskew : cfg.MaxSkewSeconds ≤ 0
      ∨ (-cfg.MaxSkewSeconds ≤ now - ts ∧ now - ts ≤ cfg.MaxSkewSeconds))
    (hver : verifyNewAPISignature (trimSpace cfg.WebhookSecret) (trimSpace req.auditTimestamp)
      data (trimSpace req.auditSignature) = true)
    (hparse : ext.unmarshal data = some event) (hdb : db.failing = false) :
    (handleNewAPIWebhook ext cfg now db (some req)).status = 204
    ∧ ∃ stored, (handleNewAPIWebhook ext cfg now db (some req)).db.rows = db.rows ++ [stored]
      ∧ stored.ID = db.nextID
      ∧ stored.EventType = truncateString event.Typ 64
      ∧ stored.EventTimestamp = event.Timestamp
      ∧ stored.RequestID = truncateString event.RequestId 64
      ∧ stored.Method = truncateString event.Method 16
      ∧ stored.Path = truncateString event.Path 512
      ∧ stored.StatusCode = event.StatusCode
      ∧ stored.DurationMs = event.DurationMs
      ∧ stored.UserID = event.UserId
      ∧ stored.Username = truncateString event.Username 128
      ∧ stored.TokenID = event.TokenId
      ∧ stored.TokenName = truncateString event.TokenName 256
      ∧ stored.UsingGroup = truncateString event.Group 128
      ∧ stored.ChannelID = event.ChannelId
      ∧ stored.ChannelName = truncateString event.ChannelName 256
      ∧ stored.ChannelType = event.ChannelType
      ∧ stored.Model = truncateString event.Model 256
      ∧ stored.ContentType = truncateString event.ContentType 256
      ∧ stored.RequestBody = event.RequestBody
      ∧ stored.RequestBodyEncoding = truncateString event.RequestBodyEncoding 16
      ∧ stored.RequestBodyBytes = event.RequestBodyBytes
      ∧ stored.RequestBodyTruncated = event.RequestBodyTruncated
      ∧ stored.RawPayload = data := by
  have hauth : (if trimSpace cfg.WebhookSecret ≠ [] then
      checkSignature cfg now (trimSpace cfg.WebhookSecret) (trimSpace req.auditTimestamp)
        (trimSpace req.auditSignature) data else none) = none := by
    by_cases hs : trimSpace cfg.WebhookSecret = []
    · simp [hs]
    · rw [if_pos hs]
      have htsne : trimSpace req.auditTimestamp ≠ [] := by
        intro h0
        rw [h0] at hts
        simp [strconvParseInt] at hts
      have hsigne : trimSpace req.auditSignature ≠ [] := by
        intro h0
        rw [h0] at hver
        exact verify_sig_ne_nil _ _ _ hs hver
      have hh : ¬ (trimSpace req.auditTimestamp = [] ∨ trimSpace req.auditSignature = []) := by
        push_neg; exact ⟨htsne, hsigne⟩
      have hsk : ¬ (cfg.MaxSkewSeconds > 0
          ∧ absInt64 (wrapInt64 (now - ts)) > cfg.MaxSkewSeconds) := by
        rcases hskew with h | h
        · intro hc; omega
        · exact skew_test_passes now ts cfg.MaxSkewSeconds hcfg h.1 h.2
      simp only [checkSignature, if_neg hh, hts, if_neg hsk, hver]
      simp
  rw [handle_after_read ext cfg now db req ⟨data, false⟩ data hbody
    (readAllLimited_fits cfg data hlen hmax) hlen, hauth]
  simp only [hparse, Db.Create, hdb]
  refine ⟨by simp, ?_⟩
  refine ⟨{ buildRecord ext cfg req (trimSpace req.auditTimestamp)
    (trimSpace req.auditSignature) data event with ID := db.nextID, CreatedAt := now }, ?_⟩
  simp [buildRecord]

/-- Witness for C7 (amended): the scenario of the specification, signed with `s3cr3t` at
1700000000 and received at that second. -/
theorem verified_ingestion_stores_record_scenario :
    (scenarioRequest scenarioBody (lit "1700000000")
        (lit "sha256=" ++ signAuditPayload (lit "s3cr3t") (lit "1700000000") scenarioBody)).Body
      = some ⟨scenarioBody, false⟩
    ∧ (scenarioBody.length : Int) ≤ (scenarioConfig (lit "s3cr3t")).MaxBodyBytes
    ∧ (scenarioConfig (lit "s3cr3t")).MaxBodyBytes < maxInt64
    ∧ strconvParseInt (trimSpace (lit "1700000000")) = (1700000000, none)
    ∧ scenarioExt.unmarshal scenarioBody = some scenarioEvent
    ∧ (handleNewAPIWebhook scenarioExt (scenarioConfig (lit "s3cr3t")) 1700000000 emptyDb
        (some (scenarioRequest scenarioBody (lit "1700000000")
          (lit "sha256=" ++ signAuditPayload (lit "s3cr3t") (lit "1700000000")
            scenarioBody)))).status = 204 :=
  ⟨rfl, by decide, by decide, by decide, by decide,
    (verified_ingestion_stores_record scenarioExt (scenarioConfig (lit "s3cr3t")) 1700000000
      emptyDb (scenarioRequest scenarioBody (lit "1700000000")
        (lit "sha256=" ++ signAuditPayload (lit "s3cr3t") (lit "1700000000") scenarioBody))
      scenarioBody scenarioEvent 1700000000 rfl (by decide) (by decide) (by decide)
      (by decide) (Or.inr (by decide))
      (scenario_signed_verifies (lit "s3cr3t") (lit "1700000000") scenarioBody (by decide)
        (by decide) (by decide))
      (by decide) rfl).1⟩

/-- C9. Body Tap capture: for every limit > 0 and a fresh active buffer, whatever the
sequence of underlying `Read` results through which the stream is delivered, after all of
them the buffer holds exactly the first min(length, limit) bytes of the stream and
`truncated` is true exactly when the stream is longer than the limit; a stream of limit+1
bytes leaves exactly limit captured bytes and `truncated = true`, a stream of exactly
limit bytes leaves the whole stream and `truncated = false`. -/
theorem tap_capture (limit : Int) (hlimit : 0 < limit) (reads : List ReadResult) :
    (readThrough (newTap limit) reads).buf = some ((streamOf reads).take limit.toNat)
    ∧ (readThrough (newTap limit) reads).truncated
        = decide (limit < ((streamOf reads).length : Int))
    ∧ ((((streamOf reads).length : Nat) : Int) = limit + 1 →
        (readThrough (newTap limit) reads).buf = some ((streamOf reads).take limit.toNat)
        ∧ (((streamOf reads).take limit.toNat).length : Int) = limit
        ∧ (readThrough (newTap limit) reads).truncated = true)
    ∧ ((((streamOf reads).length : Nat) : Int) = limit →
        (readThrough (newTap limit) reads).buf = some (streamOf reads)
        ∧ (readThrough (newTap limit) reads).truncated = false) := by
  obtain ⟨L, rfl⟩ := Int.eq_ofNat_of_zero_le (le_of_lt hlimit)
  have hL : 0 < L := by omega
  obtain ⟨h1, _, h3⟩ := readThrough_inv L hL reads (newTap (L : Int)) [] (by simp [newTap])
    (by simp [newTap]) (by simp [newTap])
  simp only [List.nil_append] at h1 h3
  simp only [Int.toNat_ofNat]
  have h3b : (readThrough (newTap (L : Int)) reads).truncated
      = decide ((L : Int) < ((streamOf reads).length : Int)) := by
    rw [h3]
    simp only [decide_eq_decide]
    constructor <;> intro _ <;> omega
  refine ⟨h1, h3b, ?_, ?_⟩
  · intro hlen
    refine ⟨h1, ?_, ?_⟩
    · rw [List.length_take]; omega
    · rw [h3]; simp only [decide_eq_true_eq]; omega
  · intro hlen
    refine ⟨?_, ?_⟩
    · rw [h1, List.take_of_length_le (by omega)]
    · rw [h3]; simp only [decide_eq_false_iff_not]; omega

/-- Witness for C9: limit 3 and the stream 1,2,3,4 delivered as 1,2 then nothing then
3,4 then EOF. -/
theorem tap_capture_witness :
    (0 : Int) < 3
    ∧ (readThrough (newTap 3)
        [⟨[1, 2], none⟩, ⟨[], none⟩, ⟨[3, 4], none⟩, ⟨[], some IoError.eof⟩]).buf
      = some ((streamOf
        [⟨[1, 2], none⟩, ⟨[], none⟩, ⟨[3, 4], none⟩, ⟨[], some IoError.eof⟩]).take
          (3 : Int).toNat)
    ∧ (readThrough (newTap 3)
        [⟨[1, 2], none⟩, ⟨[], none⟩, ⟨[3, 4], none⟩, ⟨[], some IoError.eof⟩]).truncated
      = decide ((3 : Int) < ((streamOf
        [⟨[1, 2], none⟩, ⟨[], none⟩, ⟨[3, 4], none⟩, ⟨[], some IoError.eof⟩]).length : Int)) :=
  ⟨by decide,
    (tap_capture 3 (by decide)
      [⟨[1, 2], none⟩, ⟨[], none⟩, ⟨[3, 4], none⟩, ⟨[], some IoError.eof⟩]).1,
    (tap_capture 3 (by decide)
      [⟨[1, 2], none⟩, ⟨[], none⟩, ⟨[3, 4], none⟩, ⟨[], some IoError.eof⟩]).2.1⟩

/-- C10. Body Tap transparency: for every tap state and every result of the underlying
`Read`, the tap returns exactly that result to its caller (the same delivered bytes, hence
the same count `n`, and the same error, never one of its own), and `Close` returns the
result of closing the underlying stream. -/
theorem tap_transparent (t : auditTapReadCloser) (under : ReadResult)
    (underClose : Option IoError) :
    (t.Read under).2 = under
    ∧ (t.Read under).2.data = under.data
    ∧ ((t.Read under).2.data.length : Int) = (under.data.length : Int)
    ∧ (t.Read under).2.err = under.err
    ∧ t.Close underClose = underClose := by
  have h : (t.Read under).2 = under := by
    unfold auditTapReadCloser.Read
    cases t.buf with
    | none => rfl
    | some captured =>
      simp only
      split
      · rfl
      · split <;> rfl
  rw [h]
  exact ⟨rfl, rfl, rfl, rfl, rfl⟩

/-- C11 (counterexample). With a mirror limit of 4 bytes, a multipart request whose body of
5 bytes the host read in full yields an event with nothing captured and
`RequestBodyTruncated = false`; and so does a JSON request of 2 bytes under the limit
0. -/
theorem disabled_capture_is_not_flagged :
    (streamOf [⟨[1, 2], none⟩, ⟨[3, 4, 5], some IoError.eof⟩]).length = 5
    ∧ (AuditExport scenarioCodec (scenarioSettings 4)
        (some (scenarioHostRequest (lit "multipart/form-data; boundary=x")))
        (scenarioRun [⟨[1, 2], none⟩, ⟨[3, 4, 5], some IoError.eof⟩])).map
          (fun e => (e.RequestBodyBytes, e.RequestBodyTruncated)) = some (0, false)
    ∧ (streamOf [⟨[1, 2], some IoError.eof⟩]).length = 2
    ∧ (AuditExport scenarioCodec (scenarioSettings 0)
        (some (scenarioHostRequest (lit "application/json")))
        (scenarioRun [⟨[1, 2], some IoError.eof⟩])).map
          (fun e => (e.RequestBodyBytes, e.RequestBodyTruncated)) = some (0, false) := by
  decide

/-- C11 (amended). For every configured mirror limit, content type and sequence of reads of
the host, the captured length in the event is at most the effective mirror limit (the
configured limit clamped to 0 .. 1 MiB, and 0 for a multipart content type), hence at most
a configured limit that is not negative; while capture is on (effective limit above 0)
`RequestBodyTruncated` is true exactly when the bytes read exceed the effective limit,
hence whenever they exceed the configured limit; and while capture is off (configured
limit not above 0, or multipart) nothing is captured and the flag is false. -/
theorem capture_bound_and_flag (codec : Codec) (settings : AuditSettings) (r : HostRequest)
    (run : HostRun) (e : AuditEvent)
    (h : AuditExport codec settings (some r) run = some e) :
    0 ≤ e.RequestBodyBytes
    ∧ e.RequestBodyBytes ≤ mirrorLimit settings r.contentType
    ∧ mirrorLimit settings r.contentType ≤ 1048576
    ∧ (0 ≤ settings.LogRequestBodyMaxBytes →
        e.RequestBodyBytes ≤ settings.LogRequestBodyMaxBytes)
    ∧ (0 < mirrorLimit settings r.contentType →
        (e.RequestBodyTruncated = true
          ↔ mirrorLimit settings r.contentType < ((streamOf run.reads).length : Int)))
    ∧ (0 < mirrorLimit settings r.contentType →
        settings.LogRequestBodyMaxBytes < ((streamOf run.reads).length : Int) →
        e.RequestBodyTruncated = true)
    ∧ ((settings.LogRequestBodyMaxBytes ≤ 0
          ∨ stringsContains r.contentType (lit "multipart/form-data") = true) →
        e.RequestBodyBytes = 0 ∧ e.RequestBodyTruncated = false) := by
  obtain ⟨hb, ht⟩ := auditExport_body codec settings r run e h
  obtain ⟨m1, m2, m3⟩ := mirrorLimit_range settings r.contentType
  have m2' : mirrorLimit settings r.contentType ≤ 1048576 := m2
  refine ⟨?_, ?_, m2', ?_, ?_, ?_, ?_⟩
  · rw [hb]; omega
  · rw [hb]; omega
  · intro h0
    have := m3 h0
    rw [hb]; omega
  · intro hpos
    rw [ht]
    simp only [decide_eq_true_eq]
    constructor
    · exact fun hx => hx.2
    · exact fun hx => ⟨hpos, hx⟩
  · intro hpos hlong
    rw [ht]
    simp only [decide_eq_true_eq]
    refine ⟨hpos, ?_⟩
    by_cases h0 : 0 ≤ settings.LogRequestBodyMaxBytes
    · have := m3 h0
      omega
    · have hz := (mirrorLimit_zero_iff settings r.contentType).mpr (Or.inl (by omega))
      omega
  · intro hoff
    have hz := (mirrorLimit_zero_iff settings r.contentType).mpr hoff
    rw [hb, ht, hz]
    constructor
    · omega
    · simp

/-- Witness for C11 (amended): limit 3 and the body 1,2,3,4 read in two calls. -/
theorem capture_bound_and_flag_witness :
    (AuditExport scenarioCodec (scenarioSettings 3)
        (some (scenarioHostRequest (lit "application/json")))
        (scenarioRun [⟨[1, 2], none⟩, ⟨[3, 4], some IoError.eof⟩])).map
          (fun e => (e.RequestBodyBytes, e.RequestBodyTruncated)) = some (3, true)
    ∧ ∀ e, AuditExport scenarioCodec (scenarioSettings 3)
          (some (scenarioHostRequest (lit "application/json")))
          (scenarioRun [⟨[1, 2], none⟩, ⟨[3, 4], some IoError.eof⟩]) = some e →
        e.RequestBodyBytes ≤ mirrorLimit (scenarioSettings 3)
          (scenarioHostRequest (lit "application/json")).contentType :=
  ⟨by decide, fun e he =>
    (capture_bound_and_flag scenarioCodec (scenarioSettings 3)
      (scenarioHostRequest (lit "application/json"))
      (scenarioRun [⟨[1, 2], none⟩, ⟨[3, 4], some IoError.eof⟩]) e he).2.1⟩

set_option maxRecDepth 1000000 in
/-- C12 (counterexample). With identifiers 1..100 and `limit=9223372036854775808`, a limit
whose clamp to 1..200 is 200, `handleEventsListAPI` answers 200 with the 50 rows 100..51
and `next_before_id = 51`, not with all 100 rows: `Atoi` rejects the value as out of range
and `parseInt` then takes the default. -/
theorem large_limit_reads_as_default :
    (storeOfIDs (List.range' 1 100) 101).rows.length = 100
    ∧ max 1 (min 200 (9223372036854775808 : Int)) = 200
    ∧ (handleEventsListAPI (storeOfIDs (List.range' 1 100) 101)
        (pageQuery (lit "9223372036854775808") [])).status = 200
    ∧ (handleEventsListAPI (storeOfIDs (List.range' 1 100) 101)
        (pageQuery (lit "9223372036854775808") [])).data.map AuditRecordSummary.ID
      = (List.range' 51 50).reverse
    ∧ (handleEventsListAPI (storeOfIDs (List.range' 1 100) 101)
        (pageQuery (lit "9223372036854775808") [])).next_before_id = 51 := by
  decide

set_option maxRecDepth 1000000 in
/-- C12 (amended). Page contents: on a store that answers and whose identifiers are
distinct, a query without equality filters whose `before_id` reads below 2^63 returns
stored rows with identifier below `before_id` (any row when `before_id` is 0 or absent) in
strictly descending identifier order; they are the first L such rows, L being the `limit`
clamped to 1..200 when `limit` is a decimal integer that `Atoi` reads, and the default
(50, and 100 in `handleEventsListPage`) when `limit` is absent or is not such an integer;
`before_id` is the value `parseUint64` reads (0 when absent, the number itself for a
decimal `uint64`); `next_before_id` is the identifier of the last returned row, 0 for an
empty page.  With identifiers 1..100, `limit=10` and `before_id=0` give 100..91 and 91,
and `before_id=91` gives 90..81. -/
theorem list_page_contents (render : ListPageData → Bool) (db : Db) (q : ListQuery)
    (hok : db.failing = false) (hkey : (db.rows.map AuditRecord.ID).Nodup)
    (hbefore : parseUint64 q.before_id < 9223372036854775808)
    (h1 : trimSpace q.request_id = []) (h2 : trimSpace q.path = [])
    (h3 : trimSpace q.user_id = []) (h4 : trimSpace q.status_code = []) :
    (∃ page : List AuditRecord,
      (handleEventsListAPI db q).status = 200
      ∧ (handleEventsListAPI db q).data = page.map AuditRecord.Summary
      ∧ (∀ r ∈ page, r ∈ db.rows
          ∧ (parseUint64 q.before_id = 0 ∨ r.ID < parseUint64 q.before_id))
      ∧ page.Pairwise (fun a b => b.ID < a.ID)
      ∧ (page.length : Int) ≤ clampLimit (parseInt q.limit 50)
      ∧ (∀ r ∈ db.rows, (parseUint64 q.before_id = 0 ∨ r.ID < parseUint64 q.before_id) →
          r ∉ page →
          (page.length : Int) = clampLimit (parseInt q.limit 50) ∧ ∀ x ∈ page, r.ID < x.ID)
      ∧ (page = [] → (handleEventsListAPI db q).next_before_id = 0)
      ∧ (∀ r, page.getLast? = some r → (handleEventsListAPI db q).next_before_id = r.ID))
    ∧ clampLimit (parseInt q.limit 50) = max 1 (min 200 (parseInt q.limit 50))
    ∧ (trimSpace q.limit = [] → clampLimit (parseInt q.limit 50) = 50)
    ∧ (∀ n, strconvAtoi (trimSpace q.limit) = (n, none) →
        clampLimit (parseInt q.limit 50) = max 1 (min 200 n))
    ∧ ((∀ n, strconvAtoi (trimSpace q.limit) ≠ (n, none)) →
        clampLimit (parseInt q.limit 50) = 50)
    ∧ (trimSpace q.before_id = [] → parseUint64 q.before_id = 0)
    ∧ (∀ n, n < 18446744073709551616 → parseUint64 (formatUint n) = n)
    ∧ (∃ data, (handleEventsListPage render db q).page = some data
        ∧ data.Limit = max 1 (min 200 (parseInt q.limit 100))
        ∧ (trimSpace q.limit = [] → data.Limit = 100)
        ∧ ((∀ n, strconvAtoi (trimSpace q.limit) ≠ (n, none)) → data.Limit = 100)
        ∧ data.Events = (sortDesc (db.rows.filter (fun r =>
            decide (parseUint64 q.before_id = 0 ∨ r.ID < parseUint64 q.before_id)))).take
              data.Limit.toNat
        ∧ data.NextBeforeID = lastID data.Events)
    ∧ ((handleEventsListAPI (storeOfIDs (List.range' 1 100) 101)
          (pageQuery (lit "10") (lit "0"))).data.map AuditRecordSummary.ID
        = [100, 99, 98, 97, 96, 95, 94, 93, 92, 91]
      ∧ (handleEventsListAPI (storeOfIDs (List.range' 1 100) 101)
          (pageQuery (lit "10") (lit "0"))).next_before_id = 91
      ∧ (handleEventsListAPI (storeOfIDs (List.range' 1 100) 101)
          (pageQuery (lit "10") (lit "91"))).data.map AuditRecordSummary.ID
        = [90, 89, 88, 87, 86, 85, 84, 83, 82, 81]) := by
  have hnn : (0 : Int) ≤ clampLimit (parseInt q.limit 50) :=
    le_trans (by decide : (0 : Int) ≤ 1) (clampLimit_range (parseInt q.limit 50)).1
  refine ⟨?_, clampLimit_eq _, ?_, ?_, ?_, fun hb => by simp [parseUint64, hb],
    parseUint64_formatUint, ?_, ?_⟩
  · obtain ⟨f1, f2, f3, f4⟩ := page_facts db.rows
      (fun r => (listConditions q).all (fun c => c r))
      (clampLimit (parseInt q.limit 50)).toNat hkey
    refine ⟨(sortDesc (db.rows.filter (fun r => (listConditions q).all (fun c => c r)))).take
      (clampLimit (parseInt q.limit 50)).toNat,
      by rw [handleEventsListAPI_ok db q hok hbefore],
      by rw [handleEventsListAPI_ok db q hok hbefore], ?_, f2, ?_, ?_, ?_, ?_⟩
    · intro r hr
      have hf := f1 r hr
      exact ⟨hf.1, (specMatches_no_filter q r h1 h2 h3 h4).mp
        ((listConditions_iff_specMatches q r).mp hf.2)⟩
    · rw [f3, ← Int.toNat_of_nonneg hnn]
      exact Int.ofNat_le.mpr (by rw [Int.toNat_of_nonneg hnn]; exact Nat.min_le_left _ _)
    · intro r hr hm hnot
      have hf := f4 r hr ((listConditions_iff_specMatches q r).mpr
        ((specMatches_no_filter q r h1 h2 h3 h4).mpr hm)) hnot
      refine ⟨?_, hf.2⟩
      rw [hf.1]
      exact Int.toNat_of_nonneg hnn
    · intro hnil
      rw [handleEventsListAPI_ok db q hok hbefore]
      simp only [hnil]
      rfl
    · intro r hr
      rw [handleEventsListAPI_ok db q hok hbefore]
      exact lastID_of_getLast _ r hr
  · intro hb
    rw [parseInt_blank q.limit 50 hb]
    decide
  · intro n hn
    have hne : trimSpace q.limit ≠ [] := by
      intro h0
      rw [h0] at hn
      simp [strconvAtoi, strconvParseInt] at hn
    rw [parseInt_ok q.limit 50 n hn hne, clampLimit_eq]
  · intro hn
    rw [parseInt_default q.limit 50 hn]
    decide
  · obtain ⟨data, d1, d2, _, d4, d5⟩ := handleEventsListPage_ok render db q hok hbefore h1
    refine ⟨data, d1, ?_, ?_, ?_, d4, d5⟩
    · rw [d2, clampLimit_eq]
    · intro hb
      rw [d2, parseInt_blank q.limit 100 hb]
      decide
    · intro hn
      rw [d2, parseInt_default q.limit 100 hn]
      decide
  · decide

/-- Witness for C12: identifiers 3, 1, 2 and the page of two rows below 3. -/
theorem list_page_contents_witness :
    (storeOfIDs [3, 1, 2] 4).failing = false
    ∧ ((storeOfIDs [3, 1, 2] 4).rows.map AuditRecord.ID).Nodup
    ∧ parseUint64 (pageQuery (lit "2") (lit "3")).before_id < 9223372036854775808
    ∧ trimSpace (pageQuery (lit "2") (lit "3")).request_id = []
    ∧ trimSpace (pageQuery (lit "2") (lit "3")).path = []
    ∧ trimSpace (pageQuery (lit "2") (lit "3")).user_id = []
    ∧ trimSpace (pageQuery (lit "2") (lit "3")).status_code = []
    ∧ (handleEventsListAPI (storeOfIDs [3, 1, 2] 4)
        (pageQuery (lit "2") (lit "3"))).data.map AuditRecordSummary.ID = [2, 1]
    ∧ clampLimit (parseInt (pageQuery (lit "2") (lit "3")).limit 50)
        = max 1 (min 200 (parseInt (pageQuery (lit "2") (lit "3")).limit 50)) :=
  ⟨rfl, by decide, by decide, by decide, by decide, by decide, by decide, by decide,
    (list_page_contents (fun _ => true) (storeOfIDs [3, 1, 2] 4)
      (pageQuery (lit "2") (lit "3")) rfl (by decide) (by decide) (by decide) (by decide)
      (by decide) (by decide)).2.1⟩

/-- C13. Cursor paging is complete and duplicate-free: on a store that answers, whose
records have distinct positive identifiers below the insert counter (identifiers being
below 2^63, the range of the store's signed 64-bit keys and of the arguments its queries
accept), a client that starts at `before_id = 0` and follows `next_before_id` reaches an
empty page within one call more than there are records, and has then visited every record
present at the start exactly once, in strictly descending identifier order, whatever
records are inserted between the calls. -/
theorem cursor_paging_complete (limit : Bytes) (db : Db) (arrivals : List (List AuditRecord))
    (fuel : Nat) (hok : db.failing = false) (hkey : (db.rows.map AuditRecord.ID).Nodup)
    (hpos : ∀ r ∈ db.rows, 0 < r.ID) (hlt : ∀ r ∈ db.rows, r.ID < db.nextID)
    (hN : db.nextID ≤ 9223372036854775808) (hfuel : db.rows.length < fuel) :
    ∃ visited, crawl limit fuel db arrivals 0 = some visited
      ∧ visited.Perm (db.rows.map AuditRecord.Summary)
      ∧ (visited.map AuditRecordSummary.ID).Pairwise (fun a b => b < a) := by
  have hall : (sortDesc db.rows).filter (fun r => decide ((0 : Nat) = 0 ∨ r.ID < 0))
      = sortDesc db.rows := by
    rw [List.filter_eq_self]
    intro r _
    simp
  have hv := crawl_visits limit db.rows db.nextID hkey hpos hlt hN fuel db arrivals 0 []
    hok (by simp) (by simp) (le_refl _) (fun _ => rfl) (Or.inl rfl)
    (by rw [hall, sortDesc_length]; exact hfuel)
  rw [hall] at hv
  refine ⟨_, hv, (sortDesc_perm db.rows).map _, ?_⟩
  rw [List.map_map, List.pairwise_map]
  exact sortDesc_strict db.rows hkey

/-- Witness for C13: five records, pages of two, one record inserted after the first
call. -/
theorem cursor_paging_complete_witness :
    (storeOfIDs [3, 1, 2, 5, 9] 10).failing = false
    ∧ ((storeOfIDs [3, 1, 2, 5, 9] 10).rows.map AuditRecord.ID).Nodup
    ∧ (∀ r ∈ (storeOfIDs [3, 1, 2, 5, 9] 10).rows, 0 < r.ID)
    ∧ (∀ r ∈ (storeOfIDs [3, 1, 2, 5, 9] 10).rows, r.ID < (storeOfIDs [3, 1, 2, 5, 9] 10).nextID)
    ∧ (storeOfIDs [3, 1, 2, 5, 9] 10).nextID ≤ 9223372036854775808
    ∧ (storeOfIDs [3, 1, 2, 5, 9] 10).rows.length < 6
    ∧ ∃ visited, crawl (lit "2") 6 (storeOfIDs [3, 1, 2, 5, 9] 10) [[recordWithID 0]] 0
          = some visited
        ∧ visited.Perm ((storeOfIDs [3, 1, 2, 5, 9] 10).rows.map AuditRecord.Summary)
        ∧ (visited.map AuditRecordSummary.ID).Pairwise (fun a b => b < a) :=
  ⟨rfl, by decide, by decide, by decide, by decide, by decide,
    cursor_paging_complete (lit "2") (storeOfIDs [3, 1, 2, 5, 9] 10) [[recordWithID 0]] 6
      rfl (by decide) (by decide) (by decide) (by decide) (by decide)⟩

/-- C15 (counterexample). With a mirror limit of 3 bytes and a body of 4 bytes that the
host read in full, the event's `RequestBodyBytes` is 3, not 4. -/
theorem body_bytes_is_captured_count :
    (streamOf [⟨[1, 2], none⟩, ⟨[3, 4], some IoError.eof⟩]).length = 4
    ∧ (AuditExport scenarioCodec (scenarioSettings 3)
        (some (scenarioHostRequest (lit "application/json")))
        (scenarioRun [⟨[1, 2], none⟩, ⟨[3, 4], some IoError.eof⟩])).map
          (fun e => (e.RequestBodyBytes, e.RequestBodyTruncated)) = some (3, true) := by
  decide

/-- C15 (amended). The event's `RequestBodyBytes` is the number of captured bytes: the
smaller of the number of body bytes read through the tap and the effective mirror limit.
It is the original byte count when capture is on and the body was not truncated; when
the body was truncated it is the mirror limit, below the original count; when capture is
off it is 0. -/
theorem body_bytes_is_min_of_read_and_limit (codec : Codec) (settings : AuditSettings)
    (r : HostRequest) (run : HostRun) (e : AuditEvent)
    (h : AuditExport codec settings (some r) run = some e) :
    e.RequestBodyBytes
        = min ((streamOf run.reads).length : Int) (mirrorLimit settings r.contentType)
    ∧ (0 < mirrorLimit settings r.contentType → e.RequestBodyTruncated = false →
        e.RequestBodyBytes = ((streamOf run.reads).length : Int))
    ∧ (e.RequestBodyTruncated = true →
        e.RequestBodyBytes = mirrorLimit settings r.contentType
        ∧ e.RequestBodyBytes < ((streamOf run.reads).length : Int))
    ∧ (mirrorLimit settings r.contentType = 0 → e.RequestBodyBytes = 0) := by
  obtain ⟨hb, ht⟩ := auditExport_body codec settings r run e h
  obtain ⟨m1, _, _⟩ := mirrorLimit_range settings r.contentType
  refine ⟨hb, ?_, ?_, ?_⟩
  · intro hpos hf
    rw [ht] at hf
    simp only [decide_eq_false_iff_not, not_and, not_lt] at hf
    have := hf hpos
    rw [hb]; omega
  · intro htr
    rw [ht] at htr
    simp only [decide_eq_true_eq] at htr
    rw [hb]
    constructor <;> omega
  · intro hz
    rw [hb, hz]
    omega

/-- Witness for C15 (amended): limit 8 and the body 1,2,3,4 read in two calls. -/
theorem body_bytes_is_min_of_read_and_limit_witness :
    (AuditExport scenarioCodec (scenarioSettings 8)
        (some (scenarioHostRequest (lit "application/json")))
        (scenarioRun [⟨[1, 2], none⟩, ⟨[3, 4], some IoError.eof⟩])).isSome = true
    ∧ ∀ e, AuditExport scenarioCodec (scenarioSettings 8)
          (some (scenarioHostRequest (lit "application/json")))
          (scenarioRun [⟨[1, 2], none⟩, ⟨[3, 4], some IoError.eof⟩]) = some e →
        e.RequestBodyBytes
          = min ((streamOf (scenarioRun
              [⟨[1, 2], none⟩, ⟨[3, 4], some IoError.eof⟩]).reads).length : Int)
            (mirrorLimit (scenarioSettings 8)
              (scenarioHostRequest (lit "application/json")).contentType) :=
  ⟨by decide, fun e he =>
    (body_bytes_is_min_of_read_and_limit scenarioCodec (scenarioSettings 8)
      (scenarioHostRequest (lit "application/json"))
      (scenarioRun [⟨[1, 2], none⟩, ⟨[3, 4], some IoError.eof⟩]) e he).1⟩

end AuditPipeline
